import Mathlib

/-!
Verification of the approval-gated execution state machine, the retrieval
engine, the vector-index cache keying, the evidence synthesizer and the
proposal guard of the ACL-RAG helpdesk pipeline (`src/run.py`,
`src/retrieval.py`, `src/text_utils.py`).

The Python code is shallowly embedded: dictionaries parsed from JSON become
the inductive `Json`, external tracker calls (`github_bot`) become an
explicit effect log, floats become exact rationals, and the two external
hash/embedding collaborators (`hashlib.sha1`, the embedding model) are
taken as parameters.
-/

set_option linter.unusedVariables false
set_option maxRecDepth 8000

/-- Substring test on character lists: `pat` occurs contiguously in `hay`.
Models the Python `in` operator on strings. -/
def listContainsSub : List Char → List Char → Bool
  | [], pat => pat.isEmpty
  | c :: t, pat => pat.isPrefixOf (c :: t) || listContainsSub t pat

/-- Model of the Python `pat in s` substring test. -/
def strContains (s pat : String) : Bool :=
  listContainsSub s.data pat.data

/-- Character-level model of `str.lower()` (ASCII case folding). -/
def strLower (s : String) : String :=
  String.mk (s.data.map Char.toLower)

/-- Character-level model of `str.strip()` (drop leading and trailing
whitespace). -/
def strTrim (s : String) : String :=
  String.mk (((s.data.dropWhile Char.isWhitespace).reverse.dropWhile Char.isWhitespace).reverse)

/-- Character-level model of `str.startswith(p)`. -/
def strStartsWith (s p : String) : Bool :=
  p.data.isPrefixOf s.data

/-- Last-binding lookup in an association list.  Models lookup in a Python
dict built by inserting the pairs in order (later duplicates overwrite). -/
def lookupLast {α : Type} (kvs : List (String × α)) (k : String) : Option α :=
  kvs.foldl (fun acc kv => if kv.1 == k then some kv.2 else acc) none

/-- JSON values as produced by `json.loads` (numbers restricted to integers;
no claim depends on fractional literals). -/
inductive Json where
  | null : Json
  | bool (b : Bool) : Json
  | num (n : Int) : Json
  | str (s : String) : Json
  | arr (elems : List Json) : Json
  | obj (fields : List (String × Json)) : Json
deriving Repr

/-- Model of `d.get(k)` on a parsed JSON dict (`None` when the value is not
a dict or the key is absent). -/
def Json.getKey (j : Json) (k : String) : Option Json :=
  match j with
  | .obj kvs => lookupLast kvs k
  | _ => none

/-- Python truthiness of an optional JSON value (`None`, `False`, `0`, `""`,
`[]` and an empty dict are falsy). -/
def jsonTruthy : Option Json → Bool
  | none => false
  | some .null => false
  | some (.bool b) => b
  | some (.num n) => n != 0
  | some (.str s) => s != ""
  | some (.arr xs) => !xs.isEmpty
  | some (.obj kvs) => !kvs.isEmpty

/-- Model of the Python test `struct.get("needs_approval") is False`. -/
def needsApprovalIsFalse (j : Json) : Bool :=
  match j.getKey "needs_approval" with
  | some (.bool false) => true
  | _ => false

/-- Model of `struct.get("risk_level") == "L2"`. -/
def riskIsL2 (j : Json) : Bool :=
  match j.getKey "risk_level" with
  | some (.str s) => s == "L2"
  | _ => false

/-- Test that a JSON value is a string (`isinstance(x, str)`). -/
def jsonIsStr : Json → Bool
  | .str _ => true
  | _ => false

/-- Test that a JSON value is a dict (`isinstance(x, dict)`). -/
def jsonIsObj : Json → Bool
  | .obj _ => true
  | _ => false

/-- The four required keys of a proposed-plan struct
(`_parse_proposed_plan_struct_from_comment`, run.py:370). -/
def requiredPlanKeys : List String :=
  ["risk_level", "needs_approval", "approval_role_required", "labels_to_add"]

/-- Validation tail of `_parse_proposed_plan_struct_from_comment`
(run.py:368-381): given the JSON value parsed from the fenced block, require
a dict, presence of the four required keys, `approval_role_required` a
string equal to "IT Admin" or "N/A", and `labels_to_add` a non-empty list of
strings; otherwise return `none`.  The textual extraction of the fenced
block from the comment body (run.py:349-367) is modeled by the
`Comment.planJson` field below. -/
def parse_proposed_plan_struct (parsed : Json) : Option Json :=
  match parsed with
  | .obj _ =>
    if requiredPlanKeys.any (fun k => (parsed.getKey k).isNone) then none
    else
      match parsed.getKey "approval_role_required" with
      | some (.str r) =>
        if r == "IT Admin" || r == "N/A" then
          match parsed.getKey "labels_to_add" with
          | some (.arr ls) =>
            if !ls.isEmpty && ls.all jsonIsStr then some parsed else none
          | _ => none
        else none
      | _ => none
  | _ => none

/-- Issue comment snapshot as returned by `github_bot.list_comments`
(ascending by creation time; `login` and `body` always strings).
`planJson` models the result of locating the "### Proposed actions (struct)"
heading and fenced code block in `body` and `json.loads`-ing it
(run.py:349-367); it is `none` when the heading, the fence or the JSON parse
fails. -/
structure Comment where
  body : String
  login : String
  planJson : Option Json

/-- Plan-title detection of `_find_latest_proposed_plan_and_approve`
(run.py:402). -/
def hasPlanTitle (body : String) : Bool :=
  strContains body "Proposed Plan (PENDING APPROVAL)" ||
    strContains body "Proposed Plan (TRIAGED)"

/-- Model of `re.match(r"^\s*APPROVE\s*$", body, re.I)` (run.py:412). -/
def isApproveBody (body : String) : Bool :=
  strLower (strTrim body) == "approve"

/-- Index of the last element satisfying `p`, or `none`. -/
def lastIdxWhere {α : Type} (p : α → Bool) : List α → Option Nat
  | [] => none
  | x :: xs =>
    match lastIdxWhere p xs with
    | some i => some (i + 1)
    | none => if p x then some 0 else none

/-- Model of `_find_latest_proposed_plan_and_approve` (run.py:389-415): the
most recent comment carrying a plan title, its parsed struct, and the most
recent comment strictly after it whose body is exactly an APPROVE marker. -/
def find_latest_proposed_plan_and_approve (comments : List Comment) :
    Option Comment × Option Json × Option Comment :=
  match lastIdxWhere (fun c => hasPlanTitle c.body) comments with
  | none => (none, none, none)
  | some i =>
    match comments[i]? with
    | none => (none, none, none)
    | some plan =>
      let struct := plan.planJson.bind parse_proposed_plan_struct
      let approve := ((comments.drop (i + 1)).reverse).find?
        (fun c => isApproveBody c.body)
      (some plan, struct, approve)

/-- External tracker side effects performed by the execute stage (calls into
`github_bot`; the local audit-log append is not a tracker effect). -/
inductive Effect where
  | addLabels (labels : List String) (removePrefixes : List String) : Effect
  | addAssignees (assignees : Json) : Effect
  | postComment (body : String) : Effect
deriving Repr

/-- Rejection message table of `_rejection_comment_message` (run.py:1433). -/
def rejection_comment_message (execution_result : String) : String :=
  match execution_result with
  | "rejected_employee_approval" => "**Approval rejected.** Employees cannot approve execution. Only an Engineer or IT Admin may comment APPROVE to execute. No actions were performed."
  | "rejected_l2_requires_it_admin" => "**Approval rejected.** This plan requires IT Admin approval. Only a user with the IT Admin role in our directory may approve. No actions were performed."
  | "rejected_l1_requires_engineer_or_admin" => "**Approval rejected.** This plan requires an Engineer or IT Admin to approve. Your role does not have approval permission. No actions were performed."
  | "approver_not_in_directory" => "**Approval rejected.** Your GitHub username is not in our directory, so we could not verify your role. No actions were performed. Please ask an IT Admin or Engineer listed in the directory to comment APPROVE."
  | "invalid_plan_format" => "**Invalid plan format.** We could not parse the proposed actions from the latest plan comment. No actions were performed."
  | "no_proposed_plan" => "**No proposed plan found.** There is no Proposed Plan comment on this issue. Open the issue so the bot can post a plan, then comment APPROVE to execute (if your role is allowed). No actions were performed."
  | _ => "**Approval could not be processed.** No actions were performed."

/-- The execution results for which `_maybe_post_rejection_comment`
(run.py:1166-1178) posts a rejection comment. -/
def rejectionResults : List String :=
  ["rejected_employee_approval", "rejected_l2_requires_it_admin",
   "rejected_l1_requires_engineer_or_admin", "approver_not_in_directory",
   "invalid_plan_format", "no_proposed_plan"]

/-- Model of `_maybe_post_rejection_comment` as the effects it performs. -/
def maybe_post_rejection_comment (execution_result : String) : List Effect :=
  if rejectionResults.contains execution_result then
    [Effect.postComment (rejection_comment_message execution_result)]
  else []

/-- Exact body of the executed-actions comment posted by
`_apply_approved_actions` (run.py:1462-1465), i.e.
`"## Executed actions\n\n" + json.dumps({"executed": executed}, indent=2)`. -/
def executedCommentBody (executed : List String) : String :=
  "## Executed actions\n\n" ++
    (if executed.isEmpty then "\x7b\n  \"executed\": []\n\x7d"
     else "\x7b\n  \"executed\": [\n" ++
       String.intercalate ",\n" (executed.map (fun s => "    \"" ++ s ++ "\"")) ++
       "\n  ]\n\x7d")

/-- Extract the string labels of `struct.get("labels_to_add") or []`.  For
structs accepted by `parse_proposed_plan_struct` every element is a string,
so the `filterMap` drops nothing. -/
def jsonLabelStrings (struct : Json) : List String :=
  match struct.getKey "labels_to_add" with
  | some (.arr ls) => ls.filterMap (fun x => match x with | .str s => some s | _ => none)
  | _ => []

/-- Model of `_apply_approved_actions` (run.py:1446-1466): read the current
labels; if "status:executed" is already present do nothing; otherwise strip
"status:"-prefixed labels from the plan labels, add "status:executed",
apply labels (removing existing "status:" labels), optionally add
assignees, and post the executed-actions comment.  Returns the
`executed_actions` list and the tracker effects in order. -/
def apply_approved_actions (currentLabels : List String) (struct : Json) :
    List String × List Effect :=
  if currentLabels.contains "status:executed" then ([], [])
  else
    let baseLabels := (jsonLabelStrings struct).filter (fun lb => !(strStartsWith lb "status:"))
    let labels := baseLabels ++ ["status:executed"]
    let step1 : List String × List Effect :=
      if labels.isEmpty then ([], [])
      else (["add_labels"], [Effect.addLabels labels ["status:"]])
    let assignees := struct.getKey "assignees"
    let step2 : List String × List Effect :=
      if jsonTruthy assignees then
        (["add_assignees"], [Effect.addAssignees (assignees.getD Json.null)])
      else ([], [])
    let executed := step1.1 ++ step2.1
    (executed, step1.2 ++ step2.2 ++ [Effect.postComment (executedCommentBody executed)])

/-- The externally visible issue state read by the execute stage: current
labels and the ordered (ascending by time) comment list. -/
structure GithubState where
  labels : List String
  comments : List Comment

/-- Execution block printed by `_run_execute_stage` via `_out`
(run.py:1500-1509). -/
structure ExecOutput where
  approval_status : String
  approval_actor_login : String
  approval_actor_role : String
  executed_actions : List String
  execution_result : String
deriving Repr, DecidableEq

/-- Directory role lookup: `by_github_username.get(login.lower())["role"]`.
The directory keys are lowercased github usernames (run.py:102). -/
def lookupRole (byGithub : List (String × String)) (login : String) : Option String :=
  lookupLast byGithub (strLower login)

/-- Model of `_run_execute_stage` (run.py:1469-1596): the returned execution
block together with the ordered list of tracker effects.  The audit append
and latency measurement are local (not tracker effects).  Both label reads
(run.py:1512 and run.py:1450) see the same `st.labels` since nothing mutates
the issue in between within one invocation. -/
def run_execute_stage (st : GithubState) (byGithub : List (String × String)) :
    ExecOutput × List Effect :=
  if st.labels.contains "status:executed" then
    (⟨"n/a", "", "", [], "already_executed_noop"⟩, [])
  else
    match find_latest_proposed_plan_and_approve st.comments with
    | (none, _, _) =>
      (⟨"n/a", "", "", [], "no_proposed_plan"⟩,
        maybe_post_rejection_comment "no_proposed_plan")
    | (some _, none, _) =>
      (⟨"rejected", "", "", [], "invalid_plan_format"⟩,
        maybe_post_rejection_comment "invalid_plan_format")
    | (some _, some struct, approveOpt) =>
      if needsApprovalIsFalse struct then
        (⟨"n/a", "", "", [], "l1_noop"⟩, [])
      else
        match approveOpt with
        | none =>
          (⟨"pending", "", "", [], "no_approval_found"⟩,
            maybe_post_rejection_comment "no_approval_found")
        | some ac =>
          match lookupRole byGithub ac.login with
          | none =>
            (⟨"rejected", ac.login, "", [], "approver_not_in_directory"⟩,
              maybe_post_rejection_comment "approver_not_in_directory")
          | some role =>
            if role == "Employee" then
              (⟨"rejected", ac.login, role, [], "rejected_employee_approval"⟩,
                maybe_post_rejection_comment "rejected_employee_approval")
            else if jsonTruthy (struct.getKey "needs_approval") then
              if riskIsL2 struct then
                if role != "IT Admin" then
                  (⟨"rejected", ac.login, role, [], "rejected_l2_requires_it_admin"⟩,
                    maybe_post_rejection_comment "rejected_l2_requires_it_admin")
                else
                  let ee := apply_approved_actions st.labels struct
                  let res := if ee.1.isEmpty then "already_approved_skip" else "success"
                  (⟨"approved", ac.login, role, ee.1, res⟩,
                    ee.2 ++ maybe_post_rejection_comment res)
              else
                if role != "Engineer" && role != "IT Admin" then
                  (⟨"rejected", ac.login, role, [], "rejected_l1_requires_engineer_or_admin"⟩,
                    maybe_post_rejection_comment "rejected_l1_requires_engineer_or_admin")
                else
                  let ee := apply_approved_actions st.labels struct
                  let res := if ee.1.isEmpty then "already_approved_skip" else "success"
                  (⟨"approved", ac.login, role, ee.1, res⟩,
                    ee.2 ++ maybe_post_rejection_comment res)
            else
              (⟨"pending", ac.login, role, [], "no_approval_found"⟩,
                maybe_post_rejection_comment "no_approval_found")

/-- Order-preserving de-duplication keeping first occurrences, given the
already-seen elements (`dict.fromkeys` semantics). -/
def dedupFirstAux {α : Type} [BEq α] : List α → List α → List α
  | [], _ => []
  | x :: xs, seen =>
    if seen.contains x then dedupFirstAux xs seen else x :: dedupFirstAux xs (x :: seen)

/-- Order-preserving de-duplication keeping first occurrences
(`dict.fromkeys`). -/
def dedupFirst {α : Type} [BEq α] (l : List α) : List α :=
  dedupFirstAux l []

/-- How a tracker effect changes the modeled issue state.  `addLabels`
follows `github_bot.add_labels` (github_bot.py:112-141): drop existing
labels starting with a remove-prefix, then merge keeping first occurrences.
Posted comments are appended (`mk` supplies the external authorship);
assignees are not part of the modeled issue state. -/
def applyEffect (mk : String → Comment) (st : GithubState) : Effect → GithubState
  | Effect.addLabels ls rps =>
    { st with labels :=
        dedupFirst ((st.labels.filter (fun n => !(rps.any (fun p => strStartsWith n p)))) ++ ls) }
  | Effect.addAssignees _ => st
  | Effect.postComment body => { st with comments := st.comments ++ [mk body] }

/-- Apply a list of tracker effects in order. -/
def applyEffects (mk : String → Comment) (st : GithubState) (effs : List Effect) :
    GithubState :=
  effs.foldl (applyEffect mk) st

/-- C1: when the issue labels already contain "status:executed", the execute
stage performs no tracker side effects (no label mutation, no assignee
addition, no executed-actions comment, indeed no effect at all) and returns
execution_result "already_executed_noop"; and since the issue state is
unchanged, running the execute stage a second time yields the identical
no-op output and again zero effects. -/
theorem execute_stage_already_executed_noop (mk : String → Comment)
    (st : GithubState) (byGithub : List (String × String))
    (h : st.labels.contains "status:executed" = true) :
    run_execute_stage st byGithub =
      ({ approval_status := "n/a", approval_actor_login := "",
         approval_actor_role := "", executed_actions := [],
         execution_result := "already_executed_noop" }, []) ∧
    run_execute_stage (applyEffects mk st (run_execute_stage st byGithub).2) byGithub =
      run_execute_stage st byGithub := by
  have h1 : run_execute_stage st byGithub =
      ({ approval_status := "n/a", approval_actor_login := "",
         approval_actor_role := "", executed_actions := [],
         execution_result := "already_executed_noop" }, []) := by
    unfold run_execute_stage
    rw [h]
    simp
  refine ⟨h1, ?_⟩
  rw [h1]
  simp [applyEffects]
  rw [h1]

/-- Witness for C1 at a concrete already-executed issue state. -/
theorem execute_stage_already_executed_noop_witness :
    (GithubState.mk ["cat:Access", "status:executed"] []).labels.contains "status:executed" = true ∧
    (run_execute_stage (GithubState.mk ["cat:Access", "status:executed"] []) [("alice", "IT Admin")] =
      ({ approval_status := "n/a", approval_actor_login := "",
         approval_actor_role := "", executed_actions := [],
         execution_result := "already_executed_noop" }, []) ∧
     run_execute_stage
        (applyEffects (fun b => ⟨b, "", none⟩)
          (GithubState.mk ["cat:Access", "status:executed"] [])
          (run_execute_stage (GithubState.mk ["cat:Access", "status:executed"] []) [("alice", "IT Admin")]).2)
        [("alice", "IT Admin")] =
      run_execute_stage (GithubState.mk ["cat:Access", "status:executed"] []) [("alice", "IT Admin")]) :=
  ⟨by decide,
   execute_stage_already_executed_noop (fun b => ⟨b, "", none⟩)
     (GithubState.mk ["cat:Access", "status:executed"] []) [("alice", "IT Admin")] (by decide)⟩

/-- C2: with a parsed plan whose needs_approval is true and a qualifying
APPROVE comment after it, an approver whose directory role is "Employee" is
rejected with "rejected_employee_approval", and an approver absent from the
directory fails with "approver_not_in_directory"; in both cases the only
tracker effect is the human-readable rejection comment — no labels and no
assignees are mutated. -/
theorem execute_stage_employee_or_unknown_approver
    (st : GithubState) (byGithub : List (String × String))
    (p : Comment) (struct : Json) (ac : Comment)
    (hlab : st.labels.contains "status:executed" = false)
    (hfind : find_latest_proposed_plan_and_approve st.comments = (some p, some struct, some ac))
    (hna : struct.getKey "needs_approval" = some (Json.bool true)) :
    (lookupRole byGithub ac.login = some "Employee" →
      run_execute_stage st byGithub =
        (⟨"rejected", ac.login, "Employee", [], "rejected_employee_approval"⟩,
         [Effect.postComment (rejection_comment_message "rejected_employee_approval")])) ∧
    (lookupRole byGithub ac.login = none →
      run_execute_stage st byGithub =
        (⟨"rejected", ac.login, "", [], "approver_not_in_directory"⟩,
         [Effect.postComment (rejection_comment_message "approver_not_in_directory")])) := by
  have hmp1 : maybe_post_rejection_comment "rejected_employee_approval" =
      [Effect.postComment (rejection_comment_message "rejected_employee_approval")] := rfl
  have hmp2 : maybe_post_rejection_comment "approver_not_in_directory" =
      [Effect.postComment (rejection_comment_message "approver_not_in_directory")] := rfl
  have hnf : needsApprovalIsFalse struct = false := by
    unfold needsApprovalIsFalse
    rw [hna]
  constructor <;> intro hrole <;>
    (unfold run_execute_stage; rw [hlab, hfind]; simp only [hnf]; rw [hrole]) <;>
    simp [hmp1, hmp2]

/-- Concrete parsed plan struct used in witnesses: an L2 plan that requires
approval. -/
def l2PlanJson : Json :=
  Json.obj [("risk_level", Json.str "L2"), ("needs_approval", Json.bool true),
    ("approval_role_required", Json.str "IT Admin"),
    ("labels_to_add", Json.arr [Json.str "cat:Access", Json.str "prio:Low", Json.str "status:pending-approval"])]

/-- Concrete plan comment carrying `l2PlanJson`. -/
def c2PlanComment : Comment :=
  ⟨"## Proposed Plan (PENDING APPROVAL)\n\n### Proposed actions (struct)", "bot", some l2PlanJson⟩

/-- Concrete APPROVE comment by user "alice". -/
def c2ApproveComment : Comment := ⟨"APPROVE", "alice", none⟩

/-- Witness for C2 at a concrete issue state whose approver is an Employee. -/
theorem execute_stage_employee_or_unknown_approver_witness :
    ((GithubState.mk ["cat:Access"] [c2PlanComment, c2ApproveComment]).labels.contains "status:executed" = false ∧
     find_latest_proposed_plan_and_approve [c2PlanComment, c2ApproveComment] =
       (some c2PlanComment, some l2PlanJson, some c2ApproveComment) ∧
     l2PlanJson.getKey "needs_approval" = some (Json.bool true)) ∧
    ((lookupRole [("alice", "Employee")] c2ApproveComment.login = some "Employee" →
      run_execute_stage (GithubState.mk ["cat:Access"] [c2PlanComment, c2ApproveComment]) [("alice", "Employee")] =
        (⟨"rejected", c2ApproveComment.login, "Employee", [], "rejected_employee_approval"⟩,
         [Effect.postComment (rejection_comment_message "rejected_employee_approval")])) ∧
     (lookupRole [("alice", "Employee")] c2ApproveComment.login = none →
      run_execute_stage (GithubState.mk ["cat:Access"] [c2PlanComment, c2ApproveComment]) [("alice", "Employee")] =
        (⟨"rejected", c2ApproveComment.login, "", [], "approver_not_in_directory"⟩,
         [Effect.postComment (rejection_comment_message "approver_not_in_directory")]))) :=
  ⟨⟨rfl, rfl, rfl⟩,
   execute_stage_employee_or_unknown_approver
     (GithubState.mk ["cat:Access"] [c2PlanComment, c2ApproveComment]) [("alice", "Employee")]
     c2PlanComment l2PlanJson c2ApproveComment rfl rfl rfl⟩

/-- Spec-side characterization of role well-typedness: the plan field
`approval_role_required` is a string equal to "IT Admin" or "N/A". -/
def roleWellTyped (j : Json) : Bool :=
  match j.getKey "approval_role_required" with
  | some (.str r) => r == "IT Admin" || r == "N/A"
  | _ => false

/-- Spec-side characterization of labels well-typedness: the plan field
`labels_to_add` is a non-empty list of strings. -/
def labelsWellTyped (j : Json) : Bool :=
  match j.getKey "labels_to_add" with
  | some (.arr ls) => !ls.isEmpty && ls.all jsonIsStr
  | _ => false

/-- Spec-side characterization of when the plan-struct validator accepts: a
dict with the four required keys present, a well-typed approval role and
well-typed labels.  Note that `risk_level` and `needs_approval` only need to
be present; the code does not type-check them. -/
def planStructValid (j : Json) : Bool :=
  jsonIsObj j && requiredPlanKeys.all (fun k => (j.getKey k).isSome) &&
    roleWellTyped j && labelsWellTyped j

lemma parse_plan_eq_ite (j : Json) :
    parse_proposed_plan_struct j = (if planStructValid j then some j else none) := by
  cases j with
  | obj fields =>
    unfold parse_proposed_plan_struct planStructValid
    by_cases hreq : (requiredPlanKeys.all (fun k => ((Json.obj fields).getKey k).isSome)) = true
    · have hany : (requiredPlanKeys.any (fun k => ((Json.obj fields).getKey k).isNone)) = false := by
        rw [List.any_eq_false]
        intro k hk
        have hs := (List.all_eq_true.mp hreq) k hk
        cases hgk : ((Json.obj fields).getKey k) <;> simp_all
      rw [hany]
      simp only [Bool.false_eq_true, if_false, hreq, Bool.true_and, jsonIsObj, Bool.and_self]
      cases hr : ((Json.obj fields).getKey "approval_role_required") with
      | none => simp [roleWellTyped, hr]
      | some v =>
        cases v with
        | str r =>
          by_cases hrole : (r == "IT Admin" || r == "N/A") = true
          · simp only [roleWellTyped, hr, hrole, if_true, Bool.true_and]
            cases hl : ((Json.obj fields).getKey "labels_to_add") with
            | none => simp [labelsWellTyped, hl]
            | some w =>
              cases w with
              | arr ls =>
                by_cases hls : (!ls.isEmpty && ls.all jsonIsStr) = true
                · simp [labelsWellTyped, hl, hls]
                · simp only [Bool.not_eq_true] at hls
                  simp [labelsWellTyped, hl, hls]
              | null => simp [labelsWellTyped, hl]
              | bool b => simp [labelsWellTyped, hl]
              | num n => simp [labelsWellTyped, hl]
              | str s => simp [labelsWellTyped, hl]
              | obj kvs => simp [labelsWellTyped, hl]
          · simp only [Bool.not_eq_true] at hrole
            simp [roleWellTyped, hr, hrole]
        | null => simp [roleWellTyped, hr]
        | bool b => simp [roleWellTyped, hr]
        | num n => simp [roleWellTyped, hr]
        | arr xs => simp [roleWellTyped, hr]
        | obj kvs => simp [roleWellTyped, hr]
    · simp only [Bool.not_eq_true] at hreq
      have hany : (requiredPlanKeys.any (fun k => ((Json.obj fields).getKey k).isNone)) = true := by
        rcases List.all_eq_false.mp hreq with ⟨k, hk, hns⟩
        rw [List.any_eq_true]
        refine ⟨k, hk, ?_⟩
        cases hgk : ((Json.obj fields).getKey k) <;> simp_all
      rw [hany]
      simp [hreq]
  | null => simp [parse_proposed_plan_struct, planStructValid, jsonIsObj]
  | bool b => simp [parse_proposed_plan_struct, planStructValid, jsonIsObj]
  | num n => simp [parse_proposed_plan_struct, planStructValid, jsonIsObj]
  | str s => simp [parse_proposed_plan_struct, planStructValid, jsonIsObj]
  | arr xs => simp [parse_proposed_plan_struct, planStructValid, jsonIsObj]

/-- Concrete plan struct whose `risk_level` is a number and whose
`needs_approval` is a string — both present but not well-typed. -/
def illTypedPlanJson : Json :=
  Json.obj [("risk_level", Json.num 1), ("needs_approval", Json.str "yes"),
    ("approval_role_required", Json.str "N/A"),
    ("labels_to_add", Json.arr [Json.str "cat:Other"])]

/-- Counterexample to C3: a plan block whose `risk_level` is present but is
a number (not one of the strings "L1"/"L2") and whose `needs_approval` is
present but is a string (not a boolean) is NOT treated as unparsable — the
parser accepts it, contradicting the claim that every present-but-not-
well-typed required field makes the plan unparsable. -/
theorem plan_parse_ill_typed_counterexample :
    parse_proposed_plan_struct illTypedPlanJson = some illTypedPlanJson ∧
    illTypedPlanJson.getKey "risk_level" = some (Json.num 1) ∧
    illTypedPlanJson.getKey "needs_approval" = some (Json.str "yes") :=
  ⟨rfl, rfl, rfl⟩

/-- C3 (amended): the plan parser returns the parsed dict exactly when the
value is a dict, all four required fields are present, approval_role_required
is one of the strings "IT Admin"/"N/A", and labels_to_add is a non-empty
list of strings — `risk_level` and `needs_approval` need only be present,
their types are not checked; and whenever the latest plan comment fails to
parse, the execute stage fails with "invalid_plan_format" and the only
tracker effect is the rejection comment (no label, assignee or
executed-actions effect). -/
theorem plan_parse_validation_and_invalid_plan_noop (j : Json)
    (st : GithubState) (byGithub : List (String × String))
    (p : Comment) (aOpt : Option Comment)
    (hlab : st.labels.contains "status:executed" = false)
    (hfind : find_latest_proposed_plan_and_approve st.comments = (some p, none, aOpt)) :
    parse_proposed_plan_struct j = (if planStructValid j then some j else none) ∧
    run_execute_stage st byGithub =
      (⟨"rejected", "", "", [], "invalid_plan_format"⟩,
       [Effect.postComment (rejection_comment_message "invalid_plan_format")]) := by
  refine ⟨parse_plan_eq_ite j, ?_⟩
  unfold run_execute_stage
  rw [hlab, hfind]
  rfl

/-- Concrete plan comment whose embedded block is valid JSON but not a
plan struct (a bare number), so parsing fails. -/
def c3PlanComment : Comment :=
  ⟨"## Proposed Plan (PENDING APPROVAL)\n\n### Proposed actions (struct)", "bot", some (Json.num 3)⟩

/-- Witness for C3 at a concrete unparsable plan. -/
theorem plan_parse_validation_and_invalid_plan_noop_witness :
    ((GithubState.mk [] [c3PlanComment]).labels.contains "status:executed" = false ∧
     find_latest_proposed_plan_and_approve [c3PlanComment] = (some c3PlanComment, none, none)) ∧
    (parse_proposed_plan_struct illTypedPlanJson =
       (if planStructValid illTypedPlanJson then some illTypedPlanJson else none) ∧
     run_execute_stage (GithubState.mk [] [c3PlanComment]) [] =
       (⟨"rejected", "", "", [], "invalid_plan_format"⟩,
        [Effect.postComment (rejection_comment_message "invalid_plan_format")])) :=
  ⟨⟨rfl, rfl⟩,
   plan_parse_validation_and_invalid_plan_noop illTypedPlanJson
     (GithubState.mk [] [c3PlanComment]) [] c3PlanComment none rfl rfl⟩

/-- One heading-delimited runbook section as produced by
`parse_markdown_sections` (run.py:122-172). -/
structure Section where
  doc_path : String
  tier : String
  heading : String
  content : String
  anchor : String
deriving Repr, DecidableEq

/-- Lexicographic comparison of character lists by code point; models the
order used by the Python builtin `sorted` on strings. -/
def charListLe : List Char → List Char → Bool
  | x :: xs, y :: ys => if x = y then charListLe xs ys else decide (x < y)
  | [], _ => true
  | _ :: _, [] => false

/-- String comparison used to model `sorted(...)` on tier names. -/
def pyStrLe (a b : String) : Bool :=
  charListLe a.data b.data

lemma charListLe_total : ∀ a b : List Char, (charListLe a b || charListLe b a) = true
  | [], _ => by simp [charListLe]
  | _ :: _, [] => by simp [charListLe]
  | a :: as, b :: bs => by
    by_cases hab : a = b
    · subst hab
      simp only [charListLe, if_pos rfl]
      exact charListLe_total as bs
    · have hba : b ≠ a := fun h => hab h.symm
      simp only [charListLe, if_neg hab, if_neg hba]
      rcases lt_trichotomy a b with h | h | h
      · simp [h]
      · exact absurd h hab
      · simp [h]

lemma charListLe_trans : ∀ a b c : List Char,
    charListLe a b = true → charListLe b c = true → charListLe a c = true
  | [], _, _, _, _ => by simp [charListLe]
  | x :: xs, [], _, h, _ => by simp [charListLe] at h
  | x :: xs, y :: ys, [], _, h => by simp [charListLe] at h
  | x :: xs, y :: ys, z :: zs, h₁, h₂ => by
    by_cases hxy : x = y <;> by_cases hyz : y = z
    · subst hxy; subst hyz
      simp only [charListLe, if_pos rfl] at h₁ h₂ ⊢
      exact charListLe_trans _ _ _ h₁ h₂
    · subst hxy
      simp only [charListLe, if_pos rfl, if_neg hyz] at h₁ h₂ ⊢
      simp only [decide_eq_true_eq] at h₂
      simp [hyz, h₂]
    · subst hyz
      simp only [charListLe, if_neg hxy, if_pos rfl] at h₁ h₂ ⊢
      simp only [decide_eq_true_eq] at h₁
      simp [hxy, h₁]
    · simp only [charListLe, if_neg hxy, if_neg hyz, decide_eq_true_eq] at h₁ h₂
      have hxz : x < z := lt_trans h₁ h₂
      have : x ≠ z := ne_of_lt hxz
      simp [charListLe, this, hxz]

lemma charListLe_antisymm : ∀ a b : List Char,
    charListLe a b = true → charListLe b a = true → a = b
  | [], [], _, _ => rfl
  | [], _ :: _, _, h => by simp [charListLe] at h
  | _ :: _, [], h, _ => by simp [charListLe] at h
  | a :: as, b :: bs, h₁, h₂ => by
    by_cases hab : a = b
    · subst hab
      simp only [charListLe, if_pos rfl] at h₁ h₂
      rw [charListLe_antisymm as bs h₁ h₂]
    · have hba : b ≠ a := fun h => hab h.symm
      simp only [charListLe, if_neg hab, if_neg hba, decide_eq_true_eq] at h₁ h₂
      exact absurd (lt_trans h₁ h₂) (lt_irrefl a)

lemma pyStrLe_total (a b : String) : (pyStrLe a b || pyStrLe b a) = true :=
  charListLe_total a.data b.data

lemma pyStrLe_trans (a b c : String) (h₁ : pyStrLe a b = true) (h₂ : pyStrLe b c = true) :
    pyStrLe a c = true :=
  charListLe_trans a.data b.data c.data h₁ h₂

lemma pyStrLe_antisymm (a b : String) (h₁ : pyStrLe a b = true) (h₂ : pyStrLe b a = true) :
    a = b := by
  cases a with
  | mk da =>
    cases b with
    | mk db => exact congrArg String.mk (charListLe_antisymm da db h₁ h₂)

/-- Tier values appearing in the generator of `_acl_cache_key`
(retrieval.py:61): the non-empty `tier` fields, in section order. -/
def rawTiers (sections : List Section) : List String :=
  (sections.map Section.tier).filter (fun t => t != "")

/-- Model of `sorted(set(...))` in `_acl_cache_key`: de-duplicate the
non-empty tiers and sort them lexicographically. -/
def sortedTiers (sections : List Section) : List String :=
  ((rawTiers sections).dedup).mergeSort pyStrLe

/-- The `tier_key` component of `_acl_cache_key` (retrieval.py:61-62):
underscore-join of the sorted unique tiers, or "none" when empty. -/
def tierKey (sections : List Section) : String :=
  let tiers := sortedTiers sections
  if tiers.isEmpty then "none" else String.intercalate "_" tiers

/-- Model of the `model_sanitized` component (retrieval.py:63): replace "/"
and " " with "_", strip leading/trailing underscores, default "default". -/
def sanitizeModel (model_name : String) : String :=
  let t := model_name.data.map (fun c => if c = '/' then '_' else if c = ' ' then '_' else c)
  let u := String.mk (((t.dropWhile (fun c => c = '_')).reverse.dropWhile (fun c => c = '_')).reverse)
  if u == "" then "default" else u

/-- Digit character for a decimal digit. -/
def decDigitChar (d : Nat) : Char :=
  match d with
  | 0 => '0' | 1 => '1' | 2 => '2' | 3 => '3' | 4 => '4'
  | 5 => '5' | 6 => '6' | 7 => '7' | 8 => '8' | 9 => '9'
  | _ => '*'

/-- Fueled most-significant-first decimal rendering. -/
def natStrAux : Nat → Nat → List Char
  | 0, _ => []
  | _, 0 => []
  | fuel + 1, n => natStrAux fuel (n / 10) ++ [decDigitChar (n % 10)]

/-- Decimal rendering of a natural number; models Python `str(n)` /
f-string interpolation of an integer. -/
def natStr (n : Nat) : String :=
  if n = 0 then "0" else String.mk (natStrAux (n + 1) n)

/-- Numeric value of a decimal digit character. -/
def decCharVal (c : Char) : Nat :=
  match c with
  | '0' => 0 | '1' => 1 | '2' => 2 | '3' => 3 | '4' => 4
  | '5' => 5 | '6' => 6 | '7' => 7 | '8' => 8 | '9' => 9
  | _ => 0

/-- Value of a most-significant-first decimal digit string. -/
def decValOf (cs : List Char) : Nat :=
  cs.foldl (fun a c => 10 * a + decCharVal c) 0

lemma decValOf_append_singleton (xs : List Char) (c : Char) :
    decValOf (xs ++ [c]) = 10 * decValOf xs + decCharVal c := by
  simp [decValOf, List.foldl_append]

lemma decCharVal_decDigitChar (d : Nat) (h : d < 10) :
    decCharVal (decDigitChar d) = d := by
  rcases d with _ | _ | _ | _ | _ | _ | _ | _ | _ | _ | d
  all_goals first | decide | omega

lemma decValOf_natStrAux : ∀ fuel n, n ≤ fuel → decValOf (natStrAux fuel n) = n := by
  intro fuel
  induction fuel with
  | zero =>
    intro n hn
    have h0 : n = 0 := by omega
    subst h0
    rfl
  | succ f ih =>
    intro n hn
    match n with
    | 0 => rfl
    | m + 1 =>
      have hdiv : (m + 1) / 10 ≤ f := by
        have h1 : (m + 1) / 10 < m + 1 := Nat.div_lt_self (Nat.succ_pos m) (by norm_num)
        omega
      simp only [natStrAux, decValOf_append_singleton, ih _ hdiv,
        decCharVal_decDigitChar _ (Nat.mod_lt _ (by norm_num))]
      omega

lemma decValOf_natStr (n : Nat) : decValOf (natStr n).data = n := by
  by_cases h : n = 0
  · subst h; rfl
  · simp only [natStr, if_neg h]
    exact decValOf_natStrAux (n + 1) n (Nat.le_succ n)

lemma natStr_injective : Function.Injective natStr := by
  intro m n h
  have := congrArg (fun s => decValOf s.data) h
  simpa [decValOf_natStr] using this

/-- Model of `_acl_cache_key` (retrieval.py:59-64): the triple
(tier_key, model_sanitized, num_sections). -/
def acl_cache_key (sections : List Section) (model_name : String) :
    String × String × Nat :=
  (tierKey sections, sanitizeModel model_name, sections.length)

/-- File name of the embeddings cache entry
(`f"vector_index__{tier_key}__{model_sanitized}__n{num_sections}"` plus
".npz", retrieval.py:82-83). -/
def path_npz_name (sections : List Section) (model_name : String) : String :=
  "vector_index__" ++ tierKey sections ++ "__" ++
    (sanitizeModel model_name ++ "__n" ++ natStr sections.length ++ ".npz")

/-- File name of the metadata cache entry (retrieval.py:84). -/
def path_meta_name (sections : List Section) (model_name : String) : String :=
  "vector_meta__" ++ tierKey sections ++ "__" ++
    (sanitizeModel model_name ++ "__n" ++ natStr sections.length ++ ".json")

/-- File name of the info cache entry (retrieval.py:85). -/
def path_info_name (sections : List Section) (model_name : String) : String :=
  "vector_info__" ++ tierKey sections ++ "__" ++
    (sanitizeModel model_name ++ "__n" ++ natStr sections.length ++ ".json")

/-- The permission tiers of this system (run.py:38-42, docs directory
layout). -/
def validTiers : List String := ["public", "internal", "restricted"]

/-- The sorted unique tier list determined by which of the three tiers are
present. -/
def canonTiers (i p r : Bool) : List String :=
  (if i then ["internal"] else []) ++ (if p then ["public"] else []) ++
    (if r then ["restricted"] else [])

/-- The tier key determined by which of the three tiers are present. -/
def tierKeyOfFlags (i p r : Bool) : String :=
  if (canonTiers i p r).isEmpty then "none"
  else String.intercalate "_" (canonTiers i p r)

/-- Positions below both lengths where two character lists differ. -/
def diffAtB (a b : List Char) : Bool :=
  (List.range (min a.length b.length)).any (fun k => a.getD k ' ' != b.getD k ' ')

lemma ne_append_of_diffAtB {a b r₁ r₂ : List Char} (h : diffAtB a b = true) :
    a ++ r₁ ≠ b ++ r₂ := by
  intro he
  rcases List.any_eq_true.mp h with ⟨k, hk, hne⟩
  rw [List.mem_range] at hk
  have hka : k < a.length := lt_of_lt_of_le hk (min_le_left _ _)
  have hkb : k < b.length := lt_of_lt_of_le hk (min_le_right _ _)
  have hga : (a ++ r₁)[k]? = a[k]? := List.getElem?_append_left hka
  have hgb : (b ++ r₂)[k]? = b[k]? := List.getElem?_append_left hkb
  have heq : a[k]? = b[k]? := by rw [← hga, ← hgb, he]
  rw [List.getD_eq_getElem?_getD, List.getD_eq_getElem?_getD, heq] at hne
  simp at hne

lemma sortedTiers_sorted (ss : List Section) :
    (sortedTiers ss).Pairwise (fun a b => pyStrLe a b = true) :=
  List.sorted_mergeSort pyStrLe_trans pyStrLe_total _

lemma sortedTiers_nodup (ss : List Section) : (sortedTiers ss).Nodup :=
  (List.mergeSort_perm _ _).nodup_iff.mpr (List.nodup_dedup _)

lemma mem_sortedTiers (t : String) (ss : List Section) :
    t ∈ sortedTiers ss ↔ t ∈ rawTiers ss := by
  simp [sortedTiers, List.mem_mergeSort, List.mem_dedup]

lemma canonTiers_sorted (i p r : Bool) :
    (canonTiers i p r).Pairwise (fun a b => pyStrLe a b = true) := by
  cases i <;> cases p <;> cases r <;> decide

lemma canonTiers_nodup (i p r : Bool) : (canonTiers i p r).Nodup := by
  cases i <;> cases p <;> cases r <;> decide

lemma mem_canonTiers (t : String) (i p r : Bool) :
    t ∈ canonTiers i p r ↔
      ((i = true ∧ t = "internal") ∨ (p = true ∧ t = "public") ∨
        (r = true ∧ t = "restricted")) := by
  cases i <;> cases p <;> cases r <;> simp [canonTiers]

lemma mem_rawTiers_valid (ss : List Section) (h : ∀ s ∈ ss, s.tier ∈ validTiers) :
    ∀ t ∈ rawTiers ss, t ∈ validTiers := by
  intro t ht
  rcases List.mem_filter.mp ht with ⟨hmem, _⟩
  rcases List.mem_map.mp hmem with ⟨s, hs, rfl⟩
  exact h s hs

lemma sortedTiers_eq_canon (ss : List Section) (h : ∀ s ∈ ss, s.tier ∈ validTiers) :
    sortedTiers ss =
      canonTiers (decide ("internal" ∈ rawTiers ss)) (decide ("public" ∈ rawTiers ss))
        (decide ("restricted" ∈ rawTiers ss)) := by
  have hmem : ∀ t, t ∈ sortedTiers ss ↔
      t ∈ canonTiers (decide ("internal" ∈ rawTiers ss)) (decide ("public" ∈ rawTiers ss))
        (decide ("restricted" ∈ rawTiers ss)) := by
    intro t
    rw [mem_sortedTiers, mem_canonTiers]
    constructor
    · intro ht
      have hv := mem_rawTiers_valid ss h t ht
      simp only [validTiers, List.mem_cons, List.mem_singleton, List.not_mem_nil, or_false] at hv
      rcases hv with rfl | rfl | rfl
      · exact Or.inr (Or.inl ⟨decide_eq_true ht, rfl⟩)
      · exact Or.inl ⟨decide_eq_true ht, rfl⟩
      · exact Or.inr (Or.inr ⟨decide_eq_true ht, rfl⟩)
    · rintro (⟨hf, rfl⟩ | ⟨hf, rfl⟩ | ⟨hf, rfl⟩) <;> exact of_decide_eq_true hf
  have hperm : List.Perm (sortedTiers ss)
      (canonTiers (decide ("internal" ∈ rawTiers ss)) (decide ("public" ∈ rawTiers ss))
        (decide ("restricted" ∈ rawTiers ss))) := by
    apply List.perm_iff_count.mpr
    intro a
    by_cases ha : a ∈ sortedTiers ss
    · rw [List.count_eq_one_of_mem (sortedTiers_nodup ss) ha,
        List.count_eq_one_of_mem (canonTiers_nodup _ _ _) ((hmem a).mp ha)]
    · rw [List.count_eq_zero_of_not_mem ha,
        List.count_eq_zero_of_not_mem (fun hc => ha ((hmem a).mpr hc))]
  haveI : IsAntisymm String (fun a b => pyStrLe a b = true) := ⟨pyStrLe_antisymm⟩
  exact List.eq_of_perm_of_sorted hperm (sortedTiers_sorted ss) (canonTiers_sorted _ _ _)

lemma tierKey_eq_flags (ss : List Section) (h : ∀ s ∈ ss, s.tier ∈ validTiers) :
    tierKey ss =
      tierKeyOfFlags (decide ("internal" ∈ rawTiers ss)) (decide ("public" ∈ rawTiers ss))
        (decide ("restricted" ∈ rawTiers ss)) := by
  unfold tierKey tierKeyOfFlags
  rw [sortedTiers_eq_canon ss h]

lemma tierKeyOfFlags_inj : ∀ i p r i' p' r' : Bool,
    tierKeyOfFlags i p r = tierKeyOfFlags i' p' r' → i = i' ∧ p = p' ∧ r = r' := by
  decide

lemma flags_diff_tk : ∀ i p r i' p' r' : Bool, ¬(i = i' ∧ p = p' ∧ r = r') →
    diffAtB (tierKeyOfFlags i p r ++ "__").data (tierKeyOfFlags i' p' r' ++ "__").data = true := by
  decide

lemma path_ne_of_flags (P : String) {i p r i' p' r' : Bool}
    (hne : ¬(i = i' ∧ p = p' ∧ r = r')) (suf₁ suf₂ : String) :
    P ++ tierKeyOfFlags i p r ++ "__" ++ suf₁ ≠ P ++ tierKeyOfFlags i' p' r' ++ "__" ++ suf₂ := by
  intro he
  have hd := flags_diff_tk i p r i' p' r' hne
  have hdata := congrArg String.data he
  simp only [String.data_append] at hdata
  have h2 : ((tierKeyOfFlags i p r).data ++ "__".data) ++ suf₁.data =
      ((tierKeyOfFlags i' p' r').data ++ "__".data) ++ suf₂.data := by
    apply @List.append_cancel_left _ P.data
    simpa [List.append_assoc] using hdata
  exact ne_append_of_diffAtB (by simpa [String.data_append] using hd) h2

/-- C4: two section lists over the system tiers whose sets of distinct tiers
differ get distinct `_acl_cache_key` scope triples, and all three cache file
names (embeddings, metadata, info) differ, so the two scopes never share a
cache entry: a load under one scope key only ever reads files written under
that same key, never files of the other scope. -/
theorem acl_cache_scope_isolation (ss₁ ss₂ : List Section) (mn : String)
    (h₁ : ∀ s ∈ ss₁, s.tier ∈ validTiers) (h₂ : ∀ s ∈ ss₂, s.tier ∈ validTiers)
    (hne : ¬ (∀ t, t ∈ rawTiers ss₁ ↔ t ∈ rawTiers ss₂)) :
    acl_cache_key ss₁ mn ≠ acl_cache_key ss₂ mn ∧
    path_npz_name ss₁ mn ≠ path_npz_name ss₂ mn ∧
    path_meta_name ss₁ mn ≠ path_meta_name ss₂ mn ∧
    path_info_name ss₁ mn ≠ path_info_name ss₂ mn := by
  have hflags : ¬(decide ("internal" ∈ rawTiers ss₁) = decide ("internal" ∈ rawTiers ss₂) ∧
      decide ("public" ∈ rawTiers ss₁) = decide ("public" ∈ rawTiers ss₂) ∧
      decide ("restricted" ∈ rawTiers ss₁) = decide ("restricted" ∈ rawTiers ss₂)) := by
    intro hall
    apply hne
    intro t
    constructor
    · intro ht
      have hv := mem_rawTiers_valid ss₁ h₁ t ht
      simp only [validTiers, List.mem_cons, List.mem_singleton, List.not_mem_nil, or_false] at hv
      rcases hv with rfl | rfl | rfl
      · exact of_decide_eq_true (hall.2.1 ▸ decide_eq_true ht)
      · exact of_decide_eq_true (hall.1 ▸ decide_eq_true ht)
      · exact of_decide_eq_true (hall.2.2 ▸ decide_eq_true ht)
    · intro ht
      have hv := mem_rawTiers_valid ss₂ h₂ t ht
      simp only [validTiers, List.mem_cons, List.mem_singleton, List.not_mem_nil, or_false] at hv
      rcases hv with rfl | rfl | rfl
      · exact of_decide_eq_true (hall.2.1.symm ▸ decide_eq_true ht)
      · exact of_decide_eq_true (hall.1.symm ▸ decide_eq_true ht)
      · exact of_decide_eq_true (hall.2.2.symm ▸ decide_eq_true ht)
  have hkey : tierKey ss₁ ≠ tierKey ss₂ := by
    rw [tierKey_eq_flags ss₁ h₁, tierKey_eq_flags ss₂ h₂]
    intro he
    exact hflags (tierKeyOfFlags_inj _ _ _ _ _ _ he)
  refine ⟨?_, ?_, ?_, ?_⟩
  · intro he
    exact hkey (congrArg Prod.fst he)
  · unfold path_npz_name
    rw [tierKey_eq_flags ss₁ h₁, tierKey_eq_flags ss₂ h₂]
    exact path_ne_of_flags "vector_index__" hflags _ _
  · unfold path_meta_name
    rw [tierKey_eq_flags ss₁ h₁, tierKey_eq_flags ss₂ h₂]
    exact path_ne_of_flags "vector_meta__" hflags _ _
  · unfold path_info_name
    rw [tierKey_eq_flags ss₁ h₁, tierKey_eq_flags ss₂ h₂]
    exact path_ne_of_flags "vector_info__" hflags _ _

/-- Concrete public-tier section. -/
def pubSec : Section := ⟨"docs/public/a.md", "public", "Heading A", "body a", "#heading-a"⟩

/-- Concrete restricted-tier section. -/
def resSec : Section :=
  ⟨"docs/restricted/b.md", "restricted", "Heading B", "body b", "#heading-b"⟩

/-- Witness for C4 at the claim's own example: tier set given by one public
section versus public plus restricted. -/
theorem acl_cache_scope_isolation_witness :
    ((∀ s ∈ [pubSec], s.tier ∈ validTiers) ∧ (∀ s ∈ [pubSec, resSec], s.tier ∈ validTiers) ∧
      ¬ (∀ t, t ∈ rawTiers [pubSec] ↔ t ∈ rawTiers [pubSec, resSec])) ∧
    (acl_cache_key [pubSec] "all-MiniLM-L6-v2" ≠ acl_cache_key [pubSec, resSec] "all-MiniLM-L6-v2" ∧
     path_npz_name [pubSec] "all-MiniLM-L6-v2" ≠ path_npz_name [pubSec, resSec] "all-MiniLM-L6-v2" ∧
     path_meta_name [pubSec] "all-MiniLM-L6-v2" ≠ path_meta_name [pubSec, resSec] "all-MiniLM-L6-v2" ∧
     path_info_name [pubSec] "all-MiniLM-L6-v2" ≠ path_info_name [pubSec, resSec] "all-MiniLM-L6-v2") :=
  ⟨⟨by decide, by decide,
    fun hall => absurd ((hall "restricted").mpr (by decide)) (by decide)⟩,
   acl_cache_scope_isolation [pubSec] [pubSec, resSec] "all-MiniLM-L6-v2"
     (by decide) (by decide)
     (fun hall => absurd ((hall "restricted").mpr (by decide)) (by decide))⟩

/-- Model of Python string slicing `s[:n]` (first `n` code points). -/
def pyTake (s : String) (n : Nat) : String :=
  String.mk (s.data.take n)

/-- Model of `"|".join(parts)`. -/
def joinPipe : List String → String
  | [] => ""
  | [x] => x
  | x :: xs => x ++ "|" ++ joinPipe xs

/-- One entry of the fingerprint part list
(`f"{doc_path}|{anchor}|{h}|{length}"`, retrieval.py:55, where `h` is the
sha1 hexdigest of the first 200 characters of the content).  `sha` is the
external `hashlib.sha1(...).hexdigest()` collaborator. -/
def fingerprintPart (sha : String → String) (s : Section) : String :=
  s.doc_path ++ "|" ++ s.anchor ++ "|" ++ sha (pyTake s.content 200) ++ "|" ++
    natStr s.content.length

/-- Model of `_sections_fingerprint` (retrieval.py:46-56): sha1 of the
pipe-join of the per-section parts. -/
def sections_fingerprint (sha : String → String) (ss : List Section) : String :=
  sha (joinPipe (ss.map (fingerprintPart sha)))

/-- Persisted info record of the vector-index cache (retrieval.py:123-129). -/
structure CacheInfo where
  model_name : String
  num_sections : Nat
  fingerprint : String

/-- The cache-hit validity check of `build_or_load_vector_index`
(retrieval.py:97-99): a stored info record is trusted only if model name,
section count and content fingerprint all match. -/
def cache_info_valid (info : CacheInfo) (model_name : String) (num_sections : Nat)
    (fingerprint : String) : Bool :=
  info.model_name == model_name && info.num_sections == num_sections &&
    info.fingerprint == fingerprint

lemma strAppendCancelLeft {a b c : String} (h : a ++ b = a ++ c) : b = c := by
  apply String.ext
  have h2 := congrArg String.data h
  simp only [String.data_append] at h2
  exact List.append_cancel_left h2

lemma strAppendCancelRight {a b c : String} (h : a ++ c = b ++ c) : a = b := by
  apply String.ext
  have h2 := congrArg String.data h
  simp only [String.data_append] at h2
  exact List.append_cancel_right h2

lemma fingerprintPart_ne (sha : String → String) (s t : Section)
    (hinj : Function.Injective sha)
    (hdoc : s.doc_path = t.doc_path) (hanc : s.anchor = t.anchor)
    (hlen : (sha (pyTake s.content 200)).length = (sha (pyTake t.content 200)).length)
    (hdiff : pyTake s.content 200 ≠ pyTake t.content 200 ∨
      s.content.length ≠ t.content.length) :
    fingerprintPart sha s ≠ fingerprintPart sha t := by
  intro he
  unfold fingerprintPart at he
  rw [hdoc, hanc] at he
  simp only [String.append_assoc] at he
  have he1 := strAppendCancelLeft (strAppendCancelLeft (strAppendCancelLeft
    (strAppendCancelLeft he)))
  have hdata := congrArg String.data he1
  simp only [String.data_append] at hdata
  obtain ⟨h₁, h₂⟩ := List.append_inj hdata hlen
  have htake : pyTake s.content 200 = pyTake t.content 200 := hinj (String.ext h₁)
  have hL : natStr s.content.length = natStr t.content.length := by
    have h₃ := List.append_cancel_left (h₂ : "|".data ++ _ = "|".data ++ _)
    exact String.ext h₃
  have hlens : s.content.length = t.content.length := natStr_injective hL
  rcases hdiff with hd | hd
  · exact hd htake
  · exact hd hlens

lemma joinPipe_cons_cons (x c : String) (rest : List String) :
    joinPipe (x :: c :: rest) = x ++ "|" ++ joinPipe (c :: rest) := rfl

lemma joinPipe_inj_at : ∀ (X : List String) (a b : String) (Y : List String),
    joinPipe (X ++ a :: Y) = joinPipe (X ++ b :: Y) → a = b
  | [], a, b, [] => by
    intro h
    simpa [joinPipe] using h
  | [], a, b, y :: ys => by
    intro h
    rw [List.nil_append, List.nil_append, joinPipe_cons_cons, joinPipe_cons_cons] at h
    exact strAppendCancelRight (strAppendCancelRight h)
  | x :: X', a, b, Y => by
    intro h
    cases hX : X' ++ a :: Y with
    | nil => exact absurd hX (by simp)
    | cons c cs =>
      cases hX' : X' ++ b :: Y with
      | nil => exact absurd hX' (by simp)
      | cons d ds =>
        rw [List.cons_append, List.cons_append, hX, hX',
          joinPipe_cons_cons, joinPipe_cons_cons] at h
        have h2 : joinPipe (c :: cs) = joinPipe (d :: ds) :=
          @strAppendCancelLeft (x ++ "|") _ _ (by
            simpa [String.append_assoc] using h)
        rw [← hX, ← hX'] at h2
        exact joinPipe_inj_at X' a b Y h2

/-- C5 (amended): the cache fingerprint is the hash of the pipe-joined
per-passage parts (path, anchor, hash of the FIRST 200 CHARACTERS of the
content, content length); assuming the hash collaborator is collision-free
(and its digests have a fixed width, as sha1 hexdigests do), any edit to a
passage that changes its first 200 characters or its length changes the
fingerprint, and a previously persisted cache info record carrying the old
fingerprint then fails the validity check, so the next
`build_or_load_vector_index` call rebuilds without the explicit rebuild
flag.  Edits beyond character 200 that preserve the length are NOT detected
(see the counterexample). -/
theorem sections_fingerprint_shallow_edit_invalidates
    (sha : String → String) (hinj : Function.Injective sha)
    (A B : List Section) (s t : Section) (mn : String) (n : Nat)
    (hdoc : s.doc_path = t.doc_path) (hanc : s.anchor = t.anchor)
    (hlen : (sha (pyTake s.content 200)).length = (sha (pyTake t.content 200)).length)
    (hdiff : pyTake s.content 200 ≠ pyTake t.content 200 ∨
      s.content.length ≠ t.content.length) :
    sections_fingerprint sha (A ++ s :: B) ≠ sections_fingerprint sha (A ++ t :: B) ∧
    (∀ info : CacheInfo, info.fingerprint = sections_fingerprint sha (A ++ s :: B) →
      cache_info_valid info mn n (sections_fingerprint sha (A ++ t :: B)) = false) := by
  have hfp : sections_fingerprint sha (A ++ s :: B) ≠ sections_fingerprint sha (A ++ t :: B) := by
    intro he
    have hjoin := hinj he
    rw [List.map_append, List.map_append, List.map_cons, List.map_cons] at hjoin
    have hpart := joinPipe_inj_at (A.map (fingerprintPart sha)) _ _
      (B.map (fingerprintPart sha)) hjoin
    exact fingerprintPart_ne sha s t hinj hdoc hanc hlen hdiff hpart
  refine ⟨hfp, ?_⟩
  intro info hold
  unfold cache_info_valid
  have hb : (info.fingerprint == sections_fingerprint sha (A ++ t :: B)) = false := by
    rw [hold]
    exact beq_eq_false_iff_ne.mpr hfp
  rw [hb]
  simp

/-- Content of 201 characters: 200 copies of a, then b. -/
def longContentA : String := String.mk (List.replicate 200 'a' ++ ['b'])

/-- Content of 201 characters: 200 copies of a, then c. -/
def longContentB : String := String.mk (List.replicate 200 'a' ++ ['c'])

/-- Concrete section with `longContentA`. -/
def deepSecA : Section := ⟨"docs/public/a.md", "public", "H", longContentA, "#h"⟩

/-- Concrete section identical to `deepSecA` except for character 201 of its
content. -/
def deepSecB : Section := ⟨"docs/public/a.md", "public", "H", longContentB, "#h"⟩

/-- Counterexample to C5: an edit at character 201 that preserves the length
changes the content but NOT the fingerprint (for every hash collaborator,
since the hashed first-200-character prefix and the length are unchanged),
so such a document edit does not invalidate the cache. -/
theorem sections_fingerprint_deep_edit_counterexample :
    deepSecA.content ≠ deepSecB.content ∧
    ∀ sha : String → String,
      sections_fingerprint sha [deepSecA] = sections_fingerprint sha [deepSecB] := by
  refine ⟨by decide, ?_⟩
  intro sha
  unfold sections_fingerprint
  have hpart : fingerprintPart sha deepSecA = fingerprintPart sha deepSecB := by
    unfold fingerprintPart deepSecA deepSecB
    rw [show pyTake longContentA 200 = pyTake longContentB 200 from by decide,
      show longContentA.length = longContentB.length from by decide]
  rw [List.map_cons, List.map_nil, hpart]
  rfl

/-- Concrete replacement section whose content differs from `deepSecA`
inside the first 200 characters. -/
def zSec : Section :=
  Section.mk "docs/public/a.md" "public" "H" (String.mk (List.replicate 201 'z')) "#h"

/-- Witness for the amended C5 at a concrete pair of contents differing
inside the first 200 characters, with the identity function standing in for
the collision-free hash. -/
theorem sections_fingerprint_shallow_edit_invalidates_witness :
    (Function.Injective (fun s : String => s) ∧
     ((fun s : String => s) (pyTake deepSecA.content 200)).length =
       ((fun s : String => s) (pyTake zSec.content 200)).length ∧
     (pyTake deepSecA.content 200 ≠ pyTake zSec.content 200 ∨
       deepSecA.content.length ≠ zSec.content.length)) ∧
    (sections_fingerprint (fun s => s) [deepSecA] ≠
       sections_fingerprint (fun s => s) [zSec] ∧
     (∀ info : CacheInfo,
        info.fingerprint = sections_fingerprint (fun s => s) [deepSecA] →
        cache_info_valid info "all-MiniLM-L6-v2" 1
          (sections_fingerprint (fun s => s) [zSec]) = false)) :=
  ⟨⟨fun _ _ h => h, by decide, Or.inl (by decide)⟩,
   sections_fingerprint_shallow_edit_invalidates (fun s => s) (fun _ _ h => h)
     [] [] deepSecA zSec "all-MiniLM-L6-v2" 1 rfl rfl (by decide) (Or.inl (by decide))⟩

/-- Word characters of the regex `\w` (ASCII model: letters, digits,
underscore). -/
def isWordChar (c : Char) : Bool :=
  c.isAlphanum || c = '_'

/-- Fueled extraction of the maximal word-character runs, i.e.
`re.findall(r"\b\w+\b", ...)`. -/
def wordRunsAux : Nat → List Char → List String
  | 0, _ => []
  | _, [] => []
  | fuel + 1, c :: t =>
    if isWordChar c then
      let run := t.takeWhile isWordChar
      String.mk (c :: run) :: wordRunsAux fuel (t.drop run.length)
    else wordRunsAux fuel t

/-- Maximal word-character runs of a character list. -/
def wordRuns (l : List Char) : List String :=
  wordRunsAux l.length l

/-- The characters replaced by spaces in `tokenize`
(text_utils.py:10, regex `[*_`+"`"+`#\[\]()]`). -/
def tokenizeSpecialChars : List Char :=
  ['*', '_', Char.ofNat 96, '#', '[', ']', '(', ')']

/-- Model of `text_utils.tokenize` (text_utils.py:8-12): replace the special
characters with spaces, lowercase, and take the `\w+` word runs. -/
def tokenize (text : String) : List String :=
  let cleaned := text.data.map (fun c => if tokenizeSpecialChars.contains c then ' ' else c)
  wordRuns (cleaned.map Char.toLower)

/-- Model of `Path(p).name`: the component after the final "/". -/
def pathName (p : String) : String :=
  String.mk ((p.data.reverse.takeWhile (fun c => c ≠ '/')).reverse)

/-- Model of `section_to_text_for_scoring` (text_utils.py:15-20). -/
def section_to_text_for_scoring (s : Section) : String :=
  strTrim (s.heading ++ " " ++ pathName s.doc_path ++ " " ++ s.content)

/-- Model of `score_section` (text_utils.py:23-39): term-frequency overlap of
the issue tokens against heading+filename+content tokens, plus a 0.5-weighted
bonus per issue token occurring in the heading+filename tokens (counted once
per distinct token).  The two Python loops over `issue_counter.items()` are
the two folds over the distinct issue tokens. -/
def score_section (s : Section) (issue_tokens : List String) : ℚ :=
  let body_tokens := tokenize (section_to_text_for_scoring s)
  let head_tokens := tokenize (s.heading ++ " " ++ pathName s.doc_path)
  let distinct := dedupFirst issue_tokens
  (distinct.foldl (fun acc t =>
      acc + (issue_tokens.count t : ℚ) * (body_tokens.count t : ℚ)) 0) +
  (distinct.foldl (fun acc t =>
      acc + (if head_tokens.count t > 0 then (1/2 : ℚ) * (issue_tokens.count t : ℚ) * 1 else 0)) 0)

/-- Trouble-indicating query phrases (retrieval.py:168-170). -/
def troubleshootIntentPhrases : List String :=
  ["can't", "cannot", "unable", "not working", "can't see", "missing", "no longer",
   "anymore", "error"]

/-- Troubleshooting-style section vocabulary (retrieval.py:171-173). -/
def troubleshootPositivePhrases : List String :=
  ["verify", "troubleshoot", "fix", "resolve", "common", "steps", "close ticket",
   "error", "diagnose"]

/-- Overview-style section vocabulary (retrieval.py:174). -/
def troubleshootNegativePhrases : List String :=
  ["purpose", "overview", "kb articles"]

/-- Model of `_has_troubleshoot_intent` (retrieval.py:179-184). -/
def has_troubleshoot_intent (text : String) : Bool :=
  if strTrim text == "" then false
  else troubleshootIntentPhrases.any (fun p => strContains (strTrim (strLower text)) p)

/-- Model of `_section_troubleshoot_bias` (retrieval.py:187-198): +0.15 for
troubleshooting-style heading/filename, -0.10 for overview-style. -/
def section_troubleshoot_bias (s : Section) : ℚ :=
  let combined := strLower s.heading ++ " " ++ strLower (pathName s.doc_path)
  (if troubleshootPositivePhrases.any (fun p => strContains combined p)
    then (15 / 100 : ℚ) else 0) +
  (if troubleshootNegativePhrases.any (fun p => strContains combined p)
    then (-(10 / 100) : ℚ) else 0)

/-- A section together with the scoring fields the keyword retriever attaches
(`{**s, "score": sc, "keyword_score": sc, "final_score": sc}`,
retrieval.py:246). -/
structure ScoredSection where
  sec : Section
  score : ℚ
  keyword_score : ℚ
  final_score : ℚ
deriving Repr, DecidableEq

/-- Descending order on final score; ties are kept in input order by the
stable sort, matching Python `sort(key=..., reverse=True)`. -/
def scoreDescOrder (a b : ScoredSection) : Prop :=
  b.final_score ≤ a.final_score

instance : DecidableRel scoreDescOrder :=
  fun a b => inferInstanceAs (Decidable (b.final_score ≤ a.final_score))

/-- Scoring phase of the keyword strategy (retrieval.py:243-249): score every
section, then add the troubleshoot bias to final_score when enabled and the
query signals trouble. -/
def keyword_scored (issue_text : String) (all_sections : List Section)
    (troubleshoot_bias : Bool) : List ScoredSection :=
  let issue_tokens := tokenize issue_text
  let scored0 := all_sections.map (fun s =>
    let sc := score_section s issue_tokens
    ScoredSection.mk s sc sc sc)
  if troubleshoot_bias && has_troubleshoot_intent issue_text then
    scored0.map (fun x => { x with final_score := x.final_score + section_troubleshoot_bias x.sec })
  else scored0

/-- Sorting phase (retrieval.py:250): stable sort descending by final_score.
`List.insertionSort` is a stable sort, so it computes the same list as
Python's stable `sort(..., reverse=True)`. -/
def keyword_sorted (issue_text : String) (all_sections : List Section)
    (troubleshoot_bias : Bool) : List ScoredSection :=
  List.insertionSort scoreDescOrder (keyword_scored issue_text all_sections troubleshoot_bias)

/-- The diversity-fallback loop (retrieval.py:253-260): walk the sorted list,
keeping the first passage of each distinct document, stopping at `top_k`. -/
def diversityFallbackAux : List ScoredSection → List String → Nat → List ScoredSection
  | [], _, _ => []
  | _ :: _, _, 0 => []
  | s :: rest, seen, Nat.succ m =>
    if seen.contains s.sec.doc_path then diversityFallbackAux rest seen (Nat.succ m)
    else s :: diversityFallbackAux rest (s.sec.doc_path :: seen) m

/-- One passage per distinct document from the sorted candidate list, up to
`top_k`. -/
def diversityFallback (scored : List ScoredSection) (top_k : Nat) : List ScoredSection :=
  diversityFallbackAux scored [] top_k

/-- Model of the keyword branch of `retrieve` (retrieval.py:240-263). -/
def retrieve_keyword (issue_text : String) (all_sections : List Section) (top_k : Nat)
    (troubleshoot_bias : Bool) : List ScoredSection :=
  let sorted := keyword_sorted issue_text all_sections troubleshoot_bias
  let top := sorted.take top_k
  if top.all (fun s => decide (s.final_score = 0)) && decide (top_k < sorted.length) then
    let fallback := diversityFallback sorted top_k
    if !fallback.isEmpty then fallback else top
  else top

/-- The diversity fallback as the specification words it: one passage per
distinct document drawn from the passages in ORIGINAL document order, up to
`top_k`. -/
def specFallbackAux : List Section → List String → Nat → List Section
  | [], _, _ => []
  | _ :: _, _, 0 => []
  | s :: rest, seen, Nat.succ m =>
    if seen.contains s.doc_path then specFallbackAux rest seen (Nat.succ m)
    else s :: specFallbackAux rest (s.doc_path :: seen) m

/-- Spec-side fallback: one passage per distinct document in original order. -/
def spec_diversity_fallback_original_order (sections : List Section) (top_k : Nat) :
    List Section :=
  specFallbackAux sections [] top_k

lemma diversityFallbackAux_map (f : Section → ScoredSection) (hf : ∀ s, (f s).sec = s) :
    ∀ (l : List Section) (seen : List String) (k : Nat),
      (diversityFallbackAux (l.map f) seen k).map ScoredSection.sec = specFallbackAux l seen k
  | [], seen, k => by cases k <;> simp [diversityFallbackAux, specFallbackAux]
  | s :: rest, seen, 0 => by simp [diversityFallbackAux, specFallbackAux]
  | s :: rest, seen, Nat.succ m => by
    simp only [List.map_cons, diversityFallbackAux, specFallbackAux, hf]
    by_cases hc : seen.contains s.doc_path
    · rw [if_pos hc, if_pos hc]
      exact diversityFallbackAux_map f hf rest seen (Nat.succ m)
    · rw [if_neg hc, if_neg hc]
      simp only [List.map_cons, hf]
      rw [diversityFallbackAux_map f hf rest (s.doc_path :: seen) m]

/-- C6 (amended): in the keyword strategy, whenever every one of the top-K of
the final-score-sorted candidates has score 0 and more candidates exist, the
selection is replaced by the diversity fallback — one passage per distinct
document drawn from the SORTED candidate order, up to top-K — and the result
is non-empty; when the troubleshoot bias does not apply (bias disabled or no
trouble intent) and every passage has keyword score 0, the stable sort
leaves the original order intact, so the fallback is one passage per
distinct document in ORIGINAL document order, as the spec words it. -/
theorem keyword_zero_top_diversity_fallback
    (q : String) (ss : List Section) (k : Nat) (b : Bool)
    (h0 : 0 < k) (hlen : k < ss.length) :
    (((keyword_sorted q ss b).take k).all (fun s => decide (s.final_score = 0)) = true →
      retrieve_keyword q ss k b = diversityFallback (keyword_sorted q ss b) k ∧
      retrieve_keyword q ss k b ≠ []) ∧
    ((b && has_troubleshoot_intent q) = false →
      (∀ s ∈ ss, score_section s (tokenize q) = 0) →
      (retrieve_keyword q ss k b).map ScoredSection.sec =
        spec_diversity_fallback_original_order ss k) := by
  have hslen : (keyword_sorted q ss b).length = ss.length := by
    unfold keyword_sorted
    rw [List.length_insertionSort]
    unfold keyword_scored
    split <;> simp
  obtain ⟨s₀, rest, hcons⟩ : ∃ s₀ rest, keyword_sorted q ss b = s₀ :: rest := by
    cases hs : keyword_sorted q ss b with
    | nil =>
      rw [hs] at hslen
      simp at hslen
      omega
    | cons a l => exact ⟨a, l, rfl⟩
  have hfb : diversityFallback (keyword_sorted q ss b) k ≠ [] := by
    rw [hcons]
    cases k with
    | zero => omega
    | succ m => simp [diversityFallback, diversityFallbackAux]
  have hpart1 : ((keyword_sorted q ss b).take k).all (fun s => decide (s.final_score = 0)) = true →
      retrieve_keyword q ss k b = diversityFallback (keyword_sorted q ss b) k ∧
      retrieve_keyword q ss k b ≠ [] := by
    intro htop
    have hres : retrieve_keyword q ss k b = diversityFallback (keyword_sorted q ss b) k := by
      simp only [retrieve_keyword]
      rw [htop, hslen]
      rw [decide_eq_true hlen]
      simp only [Bool.and_self, if_true]
      have hie : (diversityFallback (keyword_sorted q ss b) k).isEmpty = false := by
        cases hx : diversityFallback (keyword_sorted q ss b) k with
        | nil => exact absurd hx hfb
        | cons a l => rfl
      rw [hie]
      rfl
    exact ⟨hres, hres ▸ hfb⟩
  refine ⟨hpart1, ?_⟩
  intro hbias hz
  have hsc : keyword_scored q ss b = ss.map (fun s => ScoredSection.mk s 0 0 0) := by
    unfold keyword_scored
    rw [hbias]
    simp only [Bool.false_eq_true, if_false]
    apply List.map_congr_left
    intro s hs
    rw [hz s hs]
  have hsorted : keyword_sorted q ss b = keyword_scored q ss b := by
    unfold keyword_sorted
    apply List.Sorted.insertionSort_eq
    apply List.pairwise_of_forall_mem_list
    intro a ha c hc
    rw [hsc] at ha hc
    rcases List.mem_map.mp ha with ⟨s, _, rfl⟩
    rcases List.mem_map.mp hc with ⟨t, _, rfl⟩
    exact le_refl (0 : ℚ)
  have htop : ((keyword_sorted q ss b).take k).all (fun s => decide (s.final_score = 0)) = true := by
    rw [hsorted, hsc]
    apply List.all_eq_true.mpr
    intro x hx
    rcases List.mem_map.mp (List.mem_of_mem_take hx) with ⟨s, _, rfl⟩
    simp
  rw [(hpart1 htop).1, hsorted, hsc]
  exact diversityFallbackAux_map (fun s => ScoredSection.mk s 0 0 0) (fun _ => rfl) ss [] k

/-- Concrete overview-style section (first in document order). -/
def secNeg : Section := ⟨"d1.md", "public", "Overview", "alpha", "#overview"⟩

/-- Concrete neutral section (second in document order). -/
def secZero : Section := ⟨"d2.md", "public", "Misc", "beta", "#misc"⟩

unseal Rat.add Rat.mul Rat.sub Rat.inv Rat.ofScientific in
/-- Counterexample to C6: for query "error" (trouble intent, zero lexical
overlap with both sections) with the troubleshoot bias enabled, every one of
the top-K has score 0 and more candidates exist, yet the diversity fallback
walks the bias-sorted order, not the original document order: it returns the
d2 passage whereas one-passage-per-document in original order would return
the d1 passage. -/
theorem keyword_fallback_original_order_counterexample :
    score_section secNeg (tokenize "error") = 0 ∧
    score_section secZero (tokenize "error") = 0 ∧
    ((keyword_sorted "error" [secNeg, secZero] true).take 1).all
      (fun s => decide (s.final_score = 0)) = true ∧
    1 < ([secNeg, secZero] : List Section).length ∧
    (retrieve_keyword "error" [secNeg, secZero] 1 true).map ScoredSection.sec = [secZero] ∧
    spec_diversity_fallback_original_order [secNeg, secZero] 1 = [secNeg] ∧
    secZero ≠ secNeg := by
  refine ⟨by decide, by decide, by decide, by decide, by decide, by decide, by decide⟩

unseal Rat.add Rat.mul Rat.sub Rat.inv Rat.ofScientific in
/-- Witness for the amended C6 on a two-section corpus with zero overlap and
the bias disabled. -/
theorem keyword_zero_top_diversity_fallback_witness :
    (0 < 1 ∧ 1 < ([secNeg, secZero] : List Section).length) ∧
    ((((keyword_sorted "zzz" [secNeg, secZero] false).take 1).all
        (fun s => decide (s.final_score = 0)) = true →
      retrieve_keyword "zzz" [secNeg, secZero] 1 false =
        diversityFallback (keyword_sorted "zzz" [secNeg, secZero] false) 1 ∧
      retrieve_keyword "zzz" [secNeg, secZero] 1 false ≠ []) ∧
     ((false && has_troubleshoot_intent "zzz") = false →
      (∀ s ∈ ([secNeg, secZero] : List Section), score_section s (tokenize "zzz") = 0) →
      (retrieve_keyword "zzz" [secNeg, secZero] 1 false).map ScoredSection.sec =
        spec_diversity_fallback_original_order [secNeg, secZero] 1)) :=
  ⟨⟨by decide, by decide⟩,
   keyword_zero_top_diversity_fallback "zzz" [secNeg, secZero] 1 false
     (by decide) (by decide)⟩

/-- Character-level model of `str.rstrip()`. -/
def strTrimRight (s : String) : String :=
  String.mk ((s.data.reverse.dropWhile Char.isWhitespace).reverse)

/-- An evidence bullet of the v2 intermediate. -/
structure EvidenceBullet where
  text : String
  source_id : String
deriving Repr, DecidableEq

/-- A summary step of the v2 intermediate. -/
structure SummaryStep where
  step : String
  rationale : String
  source_ids : List String
deriving Repr, DecidableEq

/-- The v2 intermediate (run.py:652-659).  The transient bookkeeping field
`_retrieval_confidence_num` is popped before the intermediate is used
(run.py:803) and is never read by the pipeline, so it is not modeled. -/
structure Intermediate where
  summary_steps : List SummaryStep
  evidence_bullets : List EvidenceBullet
  clarifying_question : String
  confidence_level : String
  confidence_reason : String
deriving Repr, DecidableEq

/-- One entry of the source catalog (run.py:435-441). -/
structure SourceEntry where
  source_id : String
  doc_name : String
  anchor : String
  heading : String
  content : String
deriving Repr, DecidableEq

/-- The text-heuristic collaborators of the deterministic synthesizer, taken
as parameters: `_pick_best_line` (run.py:446-495), `_extract_rationale`
(run.py:497-513), `_leading_verb_key` (run.py:541-562), and the two numeric
renderings in the confidence reason (`f"{max_score}"` and
`f"{conf:.2f}"`).  No claim settled here depends on their outputs. -/
structure SynthHeuristics where
  pickBestLine : String → String
  extractRationale : String → String
  leadingVerbKey : String → String
  fmtScore : ℚ → String
  fmtConf2 : ℚ → String

/-- Model of `build_source_catalog` (run.py:421-444): sources S1..Sn in rank
order with doc name, anchor, heading and stripped content. -/
def build_source_catalog (context_sections : List ScoredSection) : List SourceEntry :=
  (List.enumFrom 1 context_sections).map (fun p =>
    { source_id := "S" ++ natStr p.1, doc_name := pathName p.2.sec.doc_path,
      anchor := p.2.sec.anchor, heading := p.2.sec.heading,
      content := strTrim p.2.sec.content })

/-- Maximum of a list with Python `max(xs, default=0)` semantics. -/
def pyMax : List ℚ → ℚ
  | [] => 0
  | x :: xs => xs.foldl max x

/-- Retrieval-confidence smoothing constant (run.py:35). -/
def CONF_K : ℚ := 8

/-- Model of `confidence_from_max_score` (run.py:203-212). -/
def confidence_from_max_score (max_score : ℚ) : ℚ :=
  if max_score ≤ 0 then 0 else max_score / (max_score + CONF_K)

/-- Maximum final score over the retrieved sections
(`max((s.get("final_score", s.get("score", 0)) ...), default=0)`). -/
def maxFinalScore (cs : List ScoredSection) : ℚ :=
  pyMax (cs.map (fun s => s.final_score))

/-- The fixed no-evidence intermediate (run.py:568-581). -/
def noEvidenceIntermediate : Intermediate :=
  { summary_steps := [
      ⟨"Escalate through official IT support.", "No runbook sections were retrieved.", []⟩,
      ⟨"Provide more details or error message.", "Helps narrow down the right runbook.", []⟩],
    evidence_bullets := [
      ⟨"No accessible runbook sections were retrieved for this request.", "N/A"⟩,
      ⟨"Escalate through the official IT support process or provide more details.", "N/A"⟩],
    clarifying_question := "What system/app and exact error message are you seeing?",
    confidence_level := "Low",
    confidence_reason := "No retrieved evidence available in accessible tiers." }

/-- The generic padding bullet (run.py:608). -/
def fallbackBullet : EvidenceBullet :=
  ⟨"Review the retrieved runbook sections and follow the documented steps.", "N/A"⟩

/-- One evidence bullet from a source entry (run.py:599-605): the picked best
line, defaulting to "doc — heading", truncated to 160 characters. -/
def bulletOf (H : SynthHeuristics) (src : SourceEntry) : EvidenceBullet :=
  let best0 := H.pickBestLine src.content
  let best1 := if best0 == "" then src.doc_name ++ " — " ++ src.heading else best0
  let best := if 160 < best1.length then strTrimRight (pyTake best1 160) ++ "..." else best1
  EvidenceBullet.mk best src.source_id

/-- Evidence bullets of the deterministic intermediate (run.py:598-608): one
best line per source (up to 8), padded to a minimum of 2 with the generic
"N/A" bullet (`while len < 2` is the replicate of the shortfall). -/
def evidence_bullets_of (H : SynthHeuristics) (sources : List SourceEntry) :
    List EvidenceBullet :=
  let bullets := (sources.take 8).map (bulletOf H)
  bullets ++ List.replicate (2 - bullets.length) fallbackBullet

/-- The fixed grouping-key order of the summary-step loop (run.py:623). -/
def summaryKeyOrder : List String :=
  ["verify", "check", "confirm", "ensure", "retry", "restart", "reconnect",
   "disconnect", "open", "sign in", "sign-in", "other"]

/-- Summary steps of the deterministic intermediate (run.py:610-643): group
the stripped non-"N/A" bullets by leading verb, emit one step per non-empty
group in fixed key order (first item's text truncated to 80, rationale from
the heuristic, de-duplicated source ids), stop at 5, then pad to 2 with the
generic step. -/
def summary_steps_of (H : SynthHeuristics) (evidence_bullets : List EvidenceBullet)
    (sources : List SourceEntry) : List SummaryStep :=
  let entries := ((evidence_bullets.take 8).map (fun b => (strTrim b.text, strTrim b.source_id))).filter
    (fun e => !(e.1 == "") && !(e.2 == "N/A"))
  let steps0 := summaryKeyOrder.filterMap (fun key =>
    match entries.filter (fun e => H.leadingVerbKey e.1 == key) with
    | [] => none
    | it :: _ =>
      let raw_text := it.1
      let stepBase := strTrimRight (pyTake raw_text 80)
      let step := if 80 < raw_text.length then stepBase ++ "..." else stepBase
      some (SummaryStep.mk step (H.extractRationale raw_text)
        (dedupFirst ((entries.filter (fun e => H.leadingVerbKey e.1 == key)).map (fun e => e.2)))))
  let summary_steps := steps0.take 5
  let fallback_sids := ((evidence_bullets.filter
    (fun b => !(strTrim b.source_id == "N/A"))).map (fun b => b.source_id)).take 3
  let padSids := if !fallback_sids.isEmpty then fallback_sids
    else match sources with
      | [] => []
      | s0 :: _ => [s0.source_id]
  summary_steps ++ List.replicate (2 - summary_steps.length)
    (SummaryStep.mk "Follow the cited runbook steps." "Evidence from retrieved sections." padSids)

/-- The trouble keywords gating the clarifying question (run.py:646). -/
def needsDetailsKeywords : List String :=
  ["cannot", "can't", "unable", "not working", "doesn't work", "error"]

/-- Model of `_deterministic_intermediate` (run.py:566-659). -/
def deterministic_intermediate (H : SynthHeuristics) (context_sections : List ScoredSection)
    (issue_text : String) : Intermediate :=
  if context_sections.isEmpty then noEvidenceIntermediate
  else
    let max_score := maxFinalScore context_sections
    let conf_num0 := confidence_from_max_score max_score
    let conf_num := if max_score = 0 then (1/4 : ℚ) else conf_num0
    let conf_level := if conf_num ≥ 70/100 then "High"
      else if conf_num ≥ 45/100 then "Medium" else "Low"
    let sources := build_source_catalog context_sections
    let evidence_bullets := evidence_bullets_of H sources
    let summary_steps := summary_steps_of H evidence_bullets sources
    let issue_lower := strLower issue_text
    let needs_details := needsDetailsKeywords.any (fun kw => strContains issue_lower kw)
    let has_explicit_error := strContains issue_lower "error:" ||
      strContains issue_lower "authentication failed" ||
      strContains issue_lower "stuck at \"connecting\"" ||
      strContains issue_lower "stuck at 'connecting'"
    let clarifying := if needs_details && !has_explicit_error then
      "Which system/app is this for, and what is the exact error message (copy/paste if possible)?"
      else ""
    { summary_steps := summary_steps.take 5,
      evidence_bullets := evidence_bullets.take 8,
      clarifying_question := clarifying,
      confidence_level := conf_level,
      confidence_reason := "Derived from retrieval max_score=" ++ H.fmtScore max_score ++
        " (confidence=" ++ H.fmtConf2 conf_num ++ ")." }

/-- A citation of the final output (run.py:1299-1304; the Python key
"section" is `sectionTitle` here since `section` is a Lean keyword). -/
structure Citation where
  doc : String
  sectionTitle : String
  anchor : String
  tier : String
deriving Repr, DecidableEq

/-- Model of `_citations_from_intermediate` (run.py:1284-1305): citations are
derived from evidence_bullets only, order preserved, de-duplicated, skipping
"N/A" and unknown source ids. -/
def citations_from_intermediate (intermediate : Intermediate)
    (retrieved : List ScoredSection) : List Citation :=
  let source_id_to_section := (List.enumFrom 1 retrieved).map
    (fun p => ("S" ++ natStr p.1, p.2))
  let candIds := (intermediate.evidence_bullets.map (fun b => strTrim b.source_id)).filter
    (fun sid => !(sid == "") && !(sid == "N/A") && (lookupLast source_id_to_section sid).isSome)
  (dedupFirst candIds).filterMap (fun sid =>
    (lookupLast source_id_to_section sid).map (fun s =>
      Citation.mk s.sec.doc_path s.sec.heading s.sec.anchor s.sec.tier))

/-- The citation/confidence/intermediate core of `_build_answer_and_actions`
(run.py:1316-1351) on the default deterministic path (`--llm_intermediate`
off, so `build_intermediate` returns the deterministic intermediate,
run.py:800-804). -/
structure AnswerCore where
  citations : List Citation
  retrieval_confidence : ℚ
  intermediate : Intermediate
deriving Repr

/-- Model of the deterministic-path core of `_build_answer_and_actions`:
build the intermediate, compute retrieval confidence with the 0.25 floor
when the max score is exactly 0, realign the confidence level and reason,
and derive citations from evidence bullets. -/
def build_answer_core (H : SynthHeuristics) (retrieved : List ScoredSection)
    (issue_text : String) : AnswerCore :=
  let intermediate0 := deterministic_intermediate H retrieved issue_text
  let max_score := maxFinalScore retrieved
  let retrieval_conf0 := confidence_from_max_score max_score
  let retrieval_conf := if max_score = 0 then (1/4 : ℚ) else retrieval_conf0
  let conf_level := if retrieval_conf ≥ 70/100 then "High"
    else if retrieval_conf ≥ 45/100 then "Medium" else "Low"
  let prefix_str := "retrieval_confidence=" ++ H.fmtConf2 retrieval_conf ++ "; "
  let existing := strTrim intermediate0.confidence_reason
  let reason := if strStartsWith existing "retrieval_confidence=" then existing
    else strTrim (prefix_str ++ existing)
  let intermediate := { intermediate0 with
    confidence_level := conf_level
    confidence_reason := reason }
  { citations := citations_from_intermediate intermediate retrieved,
    retrieval_confidence := retrieval_conf,
    intermediate := intermediate }

unseal Rat.add Rat.mul Rat.sub Rat.inv Rat.ofScientific in
/-- C7: when retrieval returns zero passages, the pipeline core produces zero
citations, retrieval confidence exactly 1/4 (the fixed low-but-nonzero floor
applied when the maximum score is 0), confidence level "Low", and an
intermediate with a non-empty clarifying question. -/
theorem empty_retrieval_low_confidence_core (H : SynthHeuristics) (q : String) :
    (build_answer_core H [] q).citations = [] ∧
    (build_answer_core H [] q).retrieval_confidence = 1/4 ∧
    (build_answer_core H [] q).intermediate.confidence_level = "Low" ∧
    (build_answer_core H [] q).intermediate.clarifying_question ≠ "" := by
  refine ⟨rfl, rfl, ?_, ?_⟩
  · have h : (build_answer_core H [] q).intermediate.confidence_level =
        (if ((1:ℚ)/4) ≥ 70/100 then "High"
         else if ((1:ℚ)/4) ≥ 45/100 then "Medium" else "Low") := rfl
    rw [h, if_neg (by norm_num), if_neg (by norm_num)]
  · have h : (build_answer_core H [] q).intermediate.clarifying_question =
        "What system/app and exact error message are you seeing?" := rfl
    rw [h]
    decide

/-- Concrete heuristic collaborators used in closed evaluations; the settled
properties do not depend on their outputs. -/
def idHeuristics : SynthHeuristics :=
  ⟨fun s => s, fun _ => "Recommended by the cited runbook for this symptom.",
   fun _ => "other", fun _ => "", fun _ => ""⟩

/-- Counterexample to C9: with exactly ONE retrieved passage (a non-empty
list), the deterministic intermediate pads the single S1 bullet with the
generic "N/A" bullet, so an evidence bullet carries source_id "N/A" even
though passages exist. -/
theorem evidence_pad_single_passage_counterexample :
    ([ScoredSection.mk pubSec 0 0 0] : List ScoredSection) ≠ [] ∧
    ((deterministic_intermediate idHeuristics [ScoredSection.mk pubSec 0 0 0]
        "q").evidence_bullets.map (fun b => b.source_id)) = ["S1", "N/A"] :=
  ⟨by decide, by decide⟩

/-- C9 (amended): evidence bullets are padded with the "N/A"-tagged generic
line whenever fewer than two bullets were produced, which happens exactly
when fewer than two passages exist; hence for every list of at least two
retrieved passages, no evidence bullet of the deterministic intermediate
carries source_id "N/A". -/
theorem evidence_bullets_sid_structure (H : SynthHeuristics) (cs : List ScoredSection)
    (q : String) (h2 : 2 ≤ cs.length) :
    ∀ b ∈ (deterministic_intermediate H cs q).evidence_bullets, b.source_id ≠ "N/A" := by
  intro b hb
  have hne : cs.isEmpty = false := by
    cases cs with
    | nil => simp at h2
    | cons a l => rfl
  unfold deterministic_intermediate at hb
  rw [hne] at hb
  simp only [Bool.false_eq_true, if_false] at hb
  unfold evidence_bullets_of at hb
  have hsrc : (build_source_catalog cs).length = cs.length := by
    simp [build_source_catalog]
  have hblen : (((build_source_catalog cs).take 8).map (bulletOf H)).length = min 8 cs.length := by
    simp [hsrc]
  have hpad : 2 - (((build_source_catalog cs).take 8).map (bulletOf H)).length = 0 := by
    rw [hblen]
    omega
  simp only [hpad, List.replicate_zero, List.append_nil] at hb
  rcases List.mem_map.mp (List.mem_of_mem_take hb) with ⟨src, hsrcmem, rfl⟩
  rcases List.mem_map.mp (List.mem_of_mem_take hsrcmem) with ⟨p, hp, rfl⟩
  intro hcontra
  have hdata := congrArg String.data hcontra
  simp only [String.data_append] at hdata
  have hS : ('S' :: (natStr p.1).data) = ['N', '/', 'A'] := hdata
  have := (List.cons.inj hS).1
  exact absurd this (by decide)

/-- Witness for the amended C9 at a concrete two-passage list. -/
theorem evidence_bullets_sid_structure_witness :
    2 ≤ ([ScoredSection.mk pubSec 0 0 0, ScoredSection.mk resSec 0 0 0] : List ScoredSection).length ∧
    ∀ b ∈ (deterministic_intermediate idHeuristics
        [ScoredSection.mk pubSec 0 0 0, ScoredSection.mk resSec 0 0 0] "q").evidence_bullets,
      b.source_id ≠ "N/A" :=
  ⟨by decide,
   evidence_bullets_sid_structure idHeuristics
     [ScoredSection.mk pubSec 0 0 0, ScoredSection.mk resSec 0 0 0] "q" (by decide)⟩

/-- Quote characters of the quoted-entity regex (run.py:852). -/
def isQuoteChar (c : Char) : Bool :=
  c = '"' || c = '\''

/-- Fueled scan for the non-overlapping matches of
`["\']([^"\']+)["\']` (run.py:852): a quote, a maximal non-empty run of
non-quote characters, and a closing quote; returns the captured runs in
order. -/
def quotedSpansAux : Nat → List Char → List String
  | 0, _ => []
  | _, [] => []
  | fuel + 1, c :: rest =>
    if isQuoteChar c then
      let run := rest.takeWhile (fun d => !(isQuoteChar d))
      match rest.drop run.length with
      | [] => []
      | _ :: rest2 =>
        if run.isEmpty then quotedSpansAux fuel (rest.drop run.length)
        else String.mk run :: quotedSpansAux fuel rest2
    else quotedSpansAux fuel rest

/-- The quoted spans of a character list. -/
def quotedSpans (l : List Char) : List String :=
  quotedSpansAux l.length l

/-- Whether a word run matches `\bu\d{3,}\b` case-insensitively
(run.py:846): a u followed by at least three digits, as a whole word. -/
def isUserIdToken (w : String) : Bool :=
  match w.data with
  | [] => false
  | c :: rest => (c == 'u' || c == 'U') && decide (3 ≤ rest.length) &&
      rest.all Char.isDigit

/-- First user-id-shaped token of `cs` absent from the lowercased issue
text (run.py:846-849). -/
def firstBadUserId (cs issue_lower : String) : Option String :=
  (wordRuns cs.data).find? (fun w => isUserIdToken w && !(strContains issue_lower (strLower w)))

/-- First quoted span of `cs` longer than 2 characters after stripping and
absent from the lowercased issue text (run.py:852-855). -/
def firstBadQuoted (cs issue_lower : String) : Option String :=
  (quotedSpans cs.data).find? (fun sp =>
    decide (2 < (strTrim sp).length) && !(strContains issue_lower (strLower (strTrim sp))))

/-- Match one of day/week/month/hour with optional plural s, case
insensitively, requiring a word boundary after (part of the duration regex,
run.py:858). -/
def matchUnitBase (l : List Char) (base : List Char) : Option (List Char × List Char) :=
  let pre := l.take base.length
  if pre.length == base.length && pre.map Char.toLower == base then
    match l.drop base.length with
    | [] => some (pre, [])
    | s :: rest2 =>
      if s.toLower = 's' then
        match rest2 with
        | [] => some (pre ++ [s], [])
        | d :: _ => if isWordChar d then none else some (pre ++ [s], rest2)
      else if isWordChar s then none else some (pre, rest2.cons s)
  else none

/-- The unit alternatives of the duration regex, in order. -/
def matchUnit (l : List Char) : Option (List Char × List Char) :=
  (matchUnitBase l "day".data) <|> (matchUnitBase l "week".data) <|>
    (matchUnitBase l "month".data) <|> (matchUnitBase l "hour".data)

/-- Fueled scan for `\b(\d+\s*(?:days?|weeks?|months?|hours?))\b`
(run.py:858): at a word boundary, a maximal digit run, optional whitespace,
and a unit word. -/
def durationScanAux : Nat → Bool → List Char → List String
  | 0, _, _ => []
  | _, _, [] => []
  | fuel + 1, prevWord, c :: rest =>
    if c.isDigit && !prevWord then
      let digits := (c :: rest).takeWhile Char.isDigit
      let afterDigits := (c :: rest).drop digits.length
      let sp := afterDigits.takeWhile Char.isWhitespace
      match matchUnit (afterDigits.drop sp.length) with
      | some (u, rest2) => String.mk (digits ++ sp ++ u) :: durationScanAux fuel true rest2
      | none => durationScanAux fuel (isWordChar c) rest
    else durationScanAux fuel (isWordChar c) rest

/-- The duration spans of a character list. -/
def durationSpans (l : List Char) : List String :=
  durationScanAux l.length false l

/-- First duration expression of `cs` absent from the lowercased issue text
(run.py:858-861). -/
def firstBadDuration (cs issue_lower : String) : Option String :=
  (durationSpans cs.data).find? (fun m => !(strContains issue_lower (strLower m)))

/-- One capitalized word `[A-Z][a-z]+` (run.py:864). -/
def capWordOf : List Char → Option (List Char × List Char)
  | [] => none
  | c :: rest =>
    if c.isUpper then
      let low := rest.takeWhile Char.isLower
      if low.isEmpty then none else some (c :: low, rest.drop low.length)
    else none

/-- Word boundary after a match: end of input or a non-word character. -/
def boundaryOkAfter : List Char → Bool
  | [] => true
  | d :: _ => !isWordChar d

/-- Fueled collection of the `(?:\s+[A-Z][a-z]+)` repetitions, each paired
with the remaining input after it. -/
def capRepsList : Nat → List Char → List (List Char × List Char)
  | 0, _ => []
  | fuel + 1, l =>
    let sp := l.takeWhile Char.isWhitespace
    if sp.isEmpty then []
    else
      match capWordOf (l.drop sp.length) with
      | none => []
      | some (w, rest) => (sp ++ w, rest) :: capRepsList fuel rest

/-- Fueled scan for `\b([A-Z][a-z]+(?:\s+[A-Z][a-z]+)+)\b` (run.py:864): two
or more capitalized words separated by whitespace; a final repetition not
followed by a word boundary is dropped (regex backtracking). -/
def capPhraseScanAux : Nat → Bool → List Char → List String
  | 0, _, _ => []
  | _, _, [] => []
  | fuel + 1, prevWord, c :: rest =>
    if c.isUpper && !prevWord then
      match capWordOf (c :: rest) with
      | some (w1, rest1) =>
        let pairs := capRepsList (fuel + 1) rest1
        let chosen :=
          if pairs.isEmpty then none
          else
            let lastPair := pairs.getLastD ([], [])
            if boundaryOkAfter lastPair.2 then some pairs
            else if pairs.length == 1 then none
            else some pairs.dropLast
        match chosen with
        | none => capPhraseScanAux fuel (isWordChar c) rest
        | some ps =>
          let phrase := w1 ++ (ps.map Prod.fst).foldr (fun a b => a ++ b) []
          let restN := (ps.getLastD ([], [])).2
          String.mk phrase :: capPhraseScanAux fuel true restN
      | none => capPhraseScanAux fuel (isWordChar c) rest
    else capPhraseScanAux fuel (isWordChar c) rest

/-- The capitalized multi-word phrases of a character list. -/
def capPhraseSpans (l : List Char) : List String :=
  capPhraseScanAux l.length false l

/-- First capitalized multi-word phrase of `cs` longer than 3 characters and
not substring-present (case-insensitively) in the issue text
(run.py:864-868). -/
def firstBadCapPhrase (cs issue_lower : String) : Option String :=
  (capPhraseSpans cs.data).find? (fun ph =>
    decide (3 < ph.length) && !(strContains issue_lower (strLower ph)))

/-- Model of `validate_comment_summary` (run.py:833-870): accept empty
candidates; reject candidates over 200 characters or introducing a user-id
token, quoted entity, duration, or capitalized multi-word phrase absent from
the request text.  Returns (ok, reason). -/
def validate_comment_summary (comment_summary : String) (issue_text_normalized : String) :
    Bool × String :=
  if strTrim comment_summary == "" then (true, "")
  else
    let cs := strTrim comment_summary
    if 200 < cs.length then (false, "comment_summary_too_long")
    else
      let issue_lower := strLower issue_text_normalized
      match firstBadUserId cs issue_lower with
      | some _ => (false, "new_facts:user_id")
      | none =>
        match firstBadQuoted cs issue_lower with
        | some _ => (false, "new_facts:quoted_entity")
        | none =>
          match firstBadDuration cs issue_lower with
          | some _ => (false, "new_facts:duration")
          | none =>
            match firstBadCapPhrase cs issue_lower with
            | some _ => (false, "new_facts:capitalized_entity")
            | none => (true, "")

/-- Triage result (run.py:214-242). -/
structure Triage where
  category : String
  priority : String
deriving Repr, DecidableEq

/-- The proposed-actions struct (run.py:305-338). -/
structure ProposedActionStruct where
  risk_level : String
  needs_approval : Bool
  approval_role_required : String
  auto_execute : Bool
  labels_to_add : List String
  assignees : List String
  comment_summary : String
deriving Repr, DecidableEq

/-- The LLM proposal consumed by the guard: only `comment_summary` is ever
read (assignees are deliberately ignored, run.py:1040-1045). -/
structure Proposal where
  comment_summary : Option String
deriving Repr, DecidableEq

/-- Proposal metadata (run.py:987, 1002). -/
structure ProposalMeta where
  used_llm : Bool
  fallback_reason : String
deriving Repr, DecidableEq

/-- Model of `merge_and_guard_proposed_struct` (run.py:1006-1047): copy the
base struct, recompute labels deterministically from the triage, and accept
the LLM comment_summary only when `validate_comment_summary` passes; on
rejection keep the deterministic summary and record the reason in the
proposal metadata (kept if already non-empty). -/
def merge_and_guard_proposed_struct (base_struct : ProposedActionStruct) (triage : Triage)
    (mode : String) (proposal : Option Proposal) (issue_text_normalized : String)
    (proposal_meta : ProposalMeta) : ProposedActionStruct × ProposalMeta :=
  let status := if base_struct.needs_approval then "status:pending-approval" else "status:triaged"
  let out := { base_struct with
    labels_to_add := ["cat:" ++ triage.category, "prio:" ++ triage.priority, status] }
  match proposal with
  | some p =>
    match p.comment_summary with
    | some cs =>
      if !(strTrim cs == "") then
        let vr := validate_comment_summary cs issue_text_normalized
        if vr.1 then ({ out with comment_summary := pyTake (strTrim cs) 300 }, proposal_meta)
        else (out, { proposal_meta with
          fallback_reason := if proposal_meta.fallback_reason == "" then
            "invalid_proposal:" ++ vr.2 else proposal_meta.fallback_reason })
      else (out, proposal_meta)
    | none => (out, proposal_meta)
  | none => (out, proposal_meta)

lemma validate_false_of_bad_quoted (cs itn : String) (sp : String)
    (hmem : sp ∈ quotedSpans (strTrim cs).data)
    (hlen : 2 < (strTrim sp).length)
    (hcont : strContains (strLower itn) (strLower (strTrim sp)) = false) :
    (validate_comment_summary cs itn).1 = false := by
  have hb : (strTrim cs == "") = false := by
    cases h : (strTrim cs == "") with
    | false => rfl
    | true =>
      have he : strTrim cs = "" := eq_of_beq h
      rw [he] at hmem
      simp [quotedSpans, quotedSpansAux] at hmem
  unfold validate_comment_summary
  rw [hb]
  simp only [Bool.false_eq_true, if_false]
  by_cases hl : 200 < (strTrim cs).length
  · rw [if_pos hl]
  · rw [if_neg hl]
    cases hu : firstBadUserId (strTrim cs) (strLower itn) with
    | some w => rfl
    | none =>
      have hq : (firstBadQuoted (strTrim cs) (strLower itn)).isSome = true := by
        apply List.find?_isSome.mpr
        exact ⟨sp, hmem, by rw [hcont]; simp [hlen]⟩
      rcases Option.isSome_iff_exists.mp hq with ⟨v, hv⟩
      rw [hv]

/-- C8: the guard never changes risk_level, needs_approval or
approval_role_required; it overwrites comment_summary only when
`validate_comment_summary` accepts the candidate against the request text,
otherwise the deterministic summary is kept and a non-empty fallback reason
is recorded; and any candidate containing a quoted phrase (longer than 2
characters stripped) absent from the request text is rejected by the
validator. -/
theorem merge_guard_frame_and_quoted_rejection
    (base : ProposedActionStruct) (tr : Triage) (mode : String)
    (prop : Option Proposal) (itn : String) (meta : ProposalMeta) :
    ((merge_and_guard_proposed_struct base tr mode prop itn meta).1.risk_level = base.risk_level ∧
     (merge_and_guard_proposed_struct base tr mode prop itn meta).1.needs_approval = base.needs_approval ∧
     (merge_and_guard_proposed_struct base tr mode prop itn meta).1.approval_role_required =
       base.approval_role_required) ∧
    (∀ p cs, prop = some p → p.comment_summary = some cs → strTrim cs ≠ "" →
      ((validate_comment_summary cs itn).1 = true →
        (merge_and_guard_proposed_struct base tr mode prop itn meta).1.comment_summary =
          pyTake (strTrim cs) 300) ∧
      ((validate_comment_summary cs itn).1 = false →
        (merge_and_guard_proposed_struct base tr mode prop itn meta).1.comment_summary =
          base.comment_summary ∧
        (merge_and_guard_proposed_struct base tr mode prop itn meta).2.fallback_reason ≠ "")) ∧
    (∀ cs sp, sp ∈ quotedSpans (strTrim cs).data → 2 < (strTrim sp).length →
      strContains (strLower itn) (strLower (strTrim sp)) = false →
      (validate_comment_summary cs itn).1 = false) := by
  refine ⟨?_, ?_, ?_⟩
  · rcases prop with _ | ⟨ocs⟩
    · exact ⟨rfl, rfl, rfl⟩
    · rcases ocs with _ | cs
      · exact ⟨rfl, rfl, rfl⟩
      · simp only [merge_and_guard_proposed_struct]
        split_ifs <;> simp
  · intro p cs hp hcs hne
    subst hp
    rcases p with ⟨ocs⟩
    have hocs : ocs = some cs := hcs
    subst hocs
    have hne' : (strTrim cs == "") = false := by
      cases h : (strTrim cs == "") with
      | false => rfl
      | true => exact absurd (eq_of_beq h) hne
    constructor
    · intro hv
      simp only [merge_and_guard_proposed_struct, hne', Bool.not_false, if_true, hv]
    · intro hv
      simp only [merge_and_guard_proposed_struct, hne', Bool.not_false, if_true, hv,
        Bool.false_eq_true, if_false]
      refine ⟨by trivial, ?_⟩
      by_cases hm : (meta.fallback_reason == "") = true
      · simp only [hm, if_true]
        intro hcontra
        have hd := congrArg String.data hcontra
        simp only [String.data_append] at hd
        rcases List.append_eq_nil.mp hd with ⟨h1, _⟩
        exact absurd h1 (by decide)
      · have hm' : (meta.fallback_reason == "") = false := by
          cases h : (meta.fallback_reason == "") with
          | false => rfl
          | true => exact absurd h hm
        simp only [hm', Bool.false_eq_true, if_false]
        intro hcontra
        rw [hcontra] at hm'
        simp at hm'
  · intro cs sp hmem hlen hcont
    exact validate_false_of_bad_quoted cs itn sp hmem hlen hcont

/-- Witness for C8 at a concrete base struct, triage, proposal carrying a
quoted phrase absent from the request text, and empty metadata. -/
theorem merge_guard_frame_and_quoted_rejection_witness :
    (("\"Finance-Q3\" drive" : String) = "\"Finance-Q3\" drive") ∧
    ((merge_and_guard_proposed_struct
        ⟨"L2", true, "IT Admin", false, [], [], "Proposed: grant access"⟩
        ⟨"Access", "Low"⟩ "cli" (some ⟨some "Grant \"Finance-Q3\" access"⟩)
        "please grant me access to the shared drive" ⟨true, ""⟩).1.risk_level = "L2" ∧
     (merge_and_guard_proposed_struct
        ⟨"L2", true, "IT Admin", false, [], [], "Proposed: grant access"⟩
        ⟨"Access", "Low"⟩ "cli" (some ⟨some "Grant \"Finance-Q3\" access"⟩)
        "please grant me access to the shared drive" ⟨true, ""⟩).1.comment_summary =
       "Proposed: grant access" ∧
     (merge_and_guard_proposed_struct
        ⟨"L2", true, "IT Admin", false, [], [], "Proposed: grant access"⟩
        ⟨"Access", "Low"⟩ "cli" (some ⟨some "Grant \"Finance-Q3\" access"⟩)
        "please grant me access to the shared drive" ⟨true, ""⟩).2.fallback_reason ≠ "") := by
  refine ⟨rfl, ?_, ?_, ?_⟩
  · exact ((merge_guard_frame_and_quoted_rejection
      ⟨"L2", true, "IT Admin", false, [], [], "Proposed: grant access"⟩
      ⟨"Access", "Low"⟩ "cli" (some ⟨some "Grant \"Finance-Q3\" access"⟩)
      "please grant me access to the shared drive" ⟨true, ""⟩).1).1
  · exact (((merge_guard_frame_and_quoted_rejection
      ⟨"L2", true, "IT Admin", false, [], [], "Proposed: grant access"⟩
      ⟨"Access", "Low"⟩ "cli" (some ⟨some "Grant \"Finance-Q3\" access"⟩)
      "please grant me access to the shared drive" ⟨true, ""⟩).2.1
      ⟨some "Grant \"Finance-Q3\" access"⟩ "Grant \"Finance-Q3\" access" rfl rfl
      (by decide)).2 (by decide)).1
  · exact (((merge_guard_frame_and_quoted_rejection
      ⟨"L2", true, "IT Admin", false, [], [], "Proposed: grant access"⟩
      ⟨"Access", "Low"⟩ "cli" (some ⟨some "Grant \"Finance-Q3\" access"⟩)
      "please grant me access to the shared drive" ⟨true, ""⟩).2.1
      ⟨some "Grant \"Finance-Q3\" access"⟩ "Grant \"Finance-Q3\" access" rfl rfl
      (by decide)).2 (by decide)).2

/-- A hybrid candidate after keyword rerank and fusion (retrieval.py:289-301). -/
structure HybridCandidate where
  sec : Section
  vector_score : ℚ
  keyword_score : ℚ
  keyword_norm : ℚ
  final_score : ℚ
deriving Repr, DecidableEq

/-- Model of `keyword_rerank_candidates` (retrieval.py:201-207): attach the
keyword score to each vector candidate (a section with its cosine
similarity). -/
def keyword_rerank_candidates (issue_text : String) (candidates : List (Section × ℚ)) :
    List (Section × ℚ × ℚ) :=
  let issue_tokens := tokenize issue_text
  candidates.map (fun c => (c.1, c.2, score_section c.1 issue_tokens))

/-- The keyword-normalization denominator of the hybrid branch
(`max((c.get("keyword_score", 0) for c in candidates), default=0) + 1e-9`,
retrieval.py:292). -/
def kw_denominator (kws : List ℚ) : ℚ :=
  pyMax kws + 1 / 1000000000

/-- Model of the hybrid fusion loop (retrieval.py:291-297): normalize each
keyword score by the pool maximum plus epsilon and fuse with the vector
score. -/
def hybrid_fused (issue_text : String) (candidates : List (Section × ℚ))
    (hybrid_alpha : ℚ) : List HybridCandidate :=
  let reranked := keyword_rerank_candidates issue_text candidates
  let kw_max := kw_denominator (reranked.map (fun c => c.2.2))
  reranked.map (fun c =>
    let kn := c.2.2 / kw_max
    HybridCandidate.mk c.1 c.2.1 c.2.2 kn (hybrid_alpha * kn + (1 - hybrid_alpha) * c.2.1))

/-- Descending order on hybrid final score. -/
def hybridDescOrder (a b : HybridCandidate) : Prop :=
  b.final_score ≤ a.final_score

instance : DecidableRel hybridDescOrder :=
  fun a b => inferInstanceAs (Decidable (b.final_score ≤ a.final_score))

/-- Model of the tail of the hybrid branch of `retrieve`
(retrieval.py:298-302): apply the troubleshoot bias, stable-sort descending
by final score, take the top-K. -/
def retrieve_hybrid (issue_text : String) (candidates : List (Section × ℚ))
    (hybrid_alpha : ℚ) (top_k : Nat) (troubleshoot_bias : Bool) : List HybridCandidate :=
  let fused := hybrid_fused issue_text candidates hybrid_alpha
  let fused := if troubleshoot_bias && has_troubleshoot_intent issue_text then
      fused.map (fun c => { c with final_score := c.final_score + section_troubleshoot_bias c.sec })
    else fused
  (List.insertionSort hybridDescOrder fused).take top_k

lemma foldl_add_nonneg {β : Type} (f : β → ℚ) (hf : ∀ t, 0 ≤ f t) :
    ∀ (l : List β) (a : ℚ), 0 ≤ a → 0 ≤ l.foldl (fun acc t => acc + f t) a
  | [], a, ha => ha
  | t :: ts, a, ha =>
    foldl_add_nonneg f hf ts (a + f t) (add_nonneg ha (hf t))

lemma score_section_nonneg (s : Section) (issue_tokens : List String) :
    0 ≤ score_section s issue_tokens := by
  unfold score_section
  apply add_nonneg
  · apply foldl_add_nonneg (fun t => ((issue_tokens.count t : ℚ)) *
      ((tokenize (section_to_text_for_scoring s)).count t : ℚ))
    · intro t
      exact mul_nonneg (Nat.cast_nonneg _) (Nat.cast_nonneg _)
    · exact le_refl 0
  · apply foldl_add_nonneg (fun t =>
      if (tokenize (s.heading ++ " " ++ pathName s.doc_path)).count t > 0 then
        (1/2 : ℚ) * (issue_tokens.count t : ℚ) * 1 else 0)
    · intro t
      split
      · positivity
      · exact le_refl 0
    · exact le_refl 0

lemma le_foldl_max (l : List ℚ) : ∀ a : ℚ, a ≤ l.foldl max a ∧ ∀ x ∈ l, x ≤ l.foldl max a := by
  induction l with
  | nil => intro a; exact ⟨le_refl a, by intro x hx; cases hx⟩
  | cons y ys ih =>
    intro a
    constructor
    · exact le_trans (le_max_left a y) ((ih (max a y)).1)
    · intro x hx
      rcases List.mem_cons.mp hx with rfl | hx'
      · exact le_trans (le_max_right a x) ((ih (max a x)).1)
      · exact (ih (max a y)).2 x hx'

lemma pyMax_spec (l : List ℚ) (hnn : ∀ x ∈ l, 0 ≤ x) :
    0 ≤ pyMax l ∧ ∀ x ∈ l, x ≤ pyMax l := by
  cases l with
  | nil => exact ⟨le_refl 0, by intro x hx; cases hx⟩
  | cons y ys =>
    constructor
    · exact le_trans (hnn y (List.mem_cons_self y ys)) ((le_foldl_max ys y).1)
    · intro x hx
      rcases List.mem_cons.mp hx with rfl | hx'
      · exact (le_foldl_max ys x).1
      · exact (le_foldl_max ys y).2 x hx'

/-- C10: in hybrid retrieval, for every candidate pool the normalization
denominator (pool maximum of the keyword scores plus 1e-9) is strictly
positive — including when every keyword score is 0 — so the normalization
never divides by zero, and every candidate's normalized keyword score lies
in [0, 1).  Scores are modeled as exact rationals. -/
theorem hybrid_normalization_safe (q : String) (cands : List (Section × ℚ))
    (alpha : ℚ) (hne : cands ≠ []) :
    0 < kw_denominator ((keyword_rerank_candidates q cands).map (fun c => c.2.2)) ∧
    ∀ c ∈ hybrid_fused q cands alpha, 0 ≤ c.keyword_norm ∧ c.keyword_norm < 1 := by
  have hnn : ∀ x ∈ (keyword_rerank_candidates q cands).map (fun c => c.2.2), 0 ≤ x := by
    intro x hx
    rcases List.mem_map.mp hx with ⟨c, hc, rfl⟩
    rcases List.mem_map.mp hc with ⟨c0, hc0, rfl⟩
    exact score_section_nonneg _ _
  obtain ⟨hmax0, hmaxge⟩ := pyMax_spec _ hnn
  have hden : 0 < kw_denominator ((keyword_rerank_candidates q cands).map (fun c => c.2.2)) := by
    unfold kw_denominator
    have : (0 : ℚ) < 1 / 1000000000 := by norm_num
    linarith
  refine ⟨hden, ?_⟩
  intro c hc
  unfold hybrid_fused at hc
  rcases List.mem_map.mp hc with ⟨r, hr, rfl⟩
  constructor
  · apply div_nonneg
    · rcases List.mem_map.mp hr with ⟨c0, hc0, rfl⟩
      exact score_section_nonneg _ _
    · exact le_of_lt hden
  · rw [div_lt_one hden]
    have hle : r.2.2 ≤ pyMax ((keyword_rerank_candidates q cands).map (fun c => c.2.2)) :=
      hmaxge _ (List.mem_map.mpr ⟨r, hr, rfl⟩)
    unfold kw_denominator
    have : (0 : ℚ) < 1 / 1000000000 := by norm_num
    linarith

unseal Rat.add Rat.mul Rat.sub Rat.inv Rat.ofScientific in
/-- Witness for C10 at a concrete two-candidate pool with zero keyword
overlap. -/
theorem hybrid_normalization_safe_witness :
    ([(secNeg, (1/2 : ℚ)), (secZero, (1/4 : ℚ))] ≠ ([] : List (Section × ℚ))) ∧
    (0 < kw_denominator ((keyword_rerank_candidates "zzz"
        [(secNeg, (1/2 : ℚ)), (secZero, (1/4 : ℚ))]).map (fun c => c.2.2)) ∧
     ∀ c ∈ hybrid_fused "zzz" [(secNeg, (1/2 : ℚ)), (secZero, (1/4 : ℚ))] (7/10),
       0 ≤ c.keyword_norm ∧ c.keyword_norm < 1) :=
  ⟨by decide,
   hybrid_normalization_safe "zzz" [(secNeg, (1/2 : ℚ)), (secZero, (1/4 : ℚ))] (7/10)
     (by decide)⟩
